import Mathlib

/-!
Shallow embedding of the trend-forecasting core of `src/trend_analyzer.py`
(class `TrendAnalyzer`), over exact rationals.  Python floats are modelled
as `ℚ` wherever the source computes field operations only; the two places
where the source takes a square root (`np.std` inside
`calculate_trend_momentum`, and the Pearson correlation denominator in
`cross_correlate_trends`) are modelled relationally over `ℝ`
(`Real.sqrt`), or by carrying the exactly-representable square.
Python `int()` truncation is modelled by `pyIntQ` / `pyIntRel`.
String lowering / substring tests mirror `str.lower()` and the Python
`in` operator on ASCII data.
-/

namespace TrendAnalyzer

/-- ASCII lowering of one character, as `str.lower` acts on the ASCII
letters used by the analyzer's labels. -/
def lowerChar (c : Char) : Char :=
  if 65 ≤ c.toNat ∧ c.toNat ≤ 90 then Char.ofNat (c.toNat + 32) else c

/-- `s.lower()` for ASCII strings. -/
def lowerStr (s : String) : String := ⟨s.data.map lowerChar⟩

/-- `needle` is a prefix of `hay` (Bool). -/
def startsWithB : List Char → List Char → Bool
  | [], _ => true
  | _ :: _, [] => false
  | a :: as, b :: bs => a == b && startsWithB as bs

/-- The Python `in` operator on strings: `needle` occurs contiguously in
`hay`. -/
def containsB (needle : List Char) : List Char → Bool
  | [] => needle.isEmpty
  | b :: bs => startsWithB needle (b :: bs) || containsB needle bs

/-- `needle in hay` for strings. -/
def strIn (needle hay : String) : Bool := containsB needle.data hay.data

/-- Mean of a list, `np.mean` (total: `0` on `[]`, every caller guards). -/
def meanQ (xs : List ℚ) : ℚ := xs.sum / xs.length

/-- `xs[i]` with default 0. -/
def getQ (xs : List ℚ) (i : ℕ) : ℚ := xs.getD i 0

/-- Population variance, `np.var`: the mean squared deviation. -/
def varQ (xs : List ℚ) : ℚ :=
  (((List.range xs.length).map fun (i : ℕ) => (getQ xs i - meanQ xs) ^ 2).sum) / xs.length

/-- `values[-k:]` — the last `k` elements (whole list when shorter). -/
def lastN (k : ℕ) (xs : List ℚ) : List ℚ := xs.drop (xs.length - k)

/-- `values[-1]` (0 on empty, every caller guards). -/
def lastD (xs : List ℚ) : ℚ := xs.getLast?.getD 0

/-- `values[0]` (0 on empty, every caller guards). -/
def headD (xs : List ℚ) : ℚ := xs.head?.getD 0

/-- `np.max` (0 on empty, every caller guards). -/
def maxQ (xs : List ℚ) : ℚ := xs.foldr max (xs.head?.getD 0)

/-- `np.gradient` of a 1-D array of length ≥ 2: forward difference at the
left edge, backward difference at the right edge, central differences at
interior points.  Length is preserved. -/
def npGradient (xs : List ℚ) : List ℚ :=
  (List.range xs.length).map fun i =>
    if i = 0 then getQ xs 1 - getQ xs 0
    else if i = xs.length - 1 then getQ xs (xs.length - 1) - getQ xs (xs.length - 2)
    else (getQ xs (i + 1) - getQ xs (i - 1)) / 2

/-- Ordinary-least-squares slope of `scipy.stats.linregress` over
`x = 0, 1, …, n-1`. -/
def slopeQ (xs : List ℚ) : ℚ :=
  let n := xs.length
  let xbar : ℚ := ((n : ℚ) - 1) / 2
  let ybar := meanQ xs
  let num := ((List.range n).map fun (i : ℕ) => ((i : ℚ) - xbar) * (getQ xs i - ybar)).sum
  let den := ((List.range n).map fun (i : ℕ) => ((i : ℚ) - xbar) ^ 2).sum
  num / den

/-- Python `int()` for a rational: truncation toward zero. -/
def pyIntQ (q : ℚ) : ℤ := if q < 0 then -⌊-q⌋ else ⌊q⌋

/-- Python `int()` for a real, relationally: truncation toward zero. -/
def pyIntRel (x : ℝ) (n : ℤ) : Prop :=
  (0 ≤ x ∧ n = ⌊x⌋) ∨ (x < 0 ∧ n = -⌊-x⌋)

/-- `list.insert(i, a)` of Python (append at end when `i` is past the
end, as Python does for nonnegative indices). -/
def insertAt : ℕ → α → List α → List α
  | 0, a, l => a :: l
  | _ + 1, a, [] => [a]
  | n + 1, a, x :: l => x :: insertAt n a l

/-- `calculate_trend_velocity` (src/trend_analyzer.py).  Returns
`(score, direction)`. -/
def calculate_trend_velocity (xs : List ℚ) : ℚ × String :=
  if xs.length < 2 then (0, "stable")
  else
    let velocity := npGradient xs
    let avg := meanQ velocity
    let recent := if 3 ≤ velocity.length then meanQ (lastN 3 velocity) else avg
    if 5 < recent then (min 100 (50 + |recent| * 2), "rapidly_rising")
    else if 1 < recent then (60 + |recent| * 3, "rising")
    else if recent < -5 then (max 0 (50 - |recent| * 2), "rapidly_falling")
    else if recent < -1 then (40 - |recent| * 3, "falling")
    else (50, "stable")

/-- `calculate_trend_acceleration`.  Returns `(score, state)`. -/
def calculate_trend_acceleration (xs : List ℚ) : ℚ × String :=
  if xs.length < 3 then (0, "steady")
  else
    let velocity := npGradient xs
    let acceleration := npGradient velocity
    let recent :=
      if 3 ≤ acceleration.length then meanQ (lastN 3 acceleration) else meanQ acceleration
    if 2 < recent then (80, "accelerating")
    else if (1 / 2 : ℚ) < recent then (65, "slowly_accelerating")
    else if recent < -2 then (30, "decelerating")
    else if recent < -(1 / 2 : ℚ) then (45, "slowly_decelerating")
    else (50, "steady")

/-- Growth rate `(recent-early)/early*100` of `detect_trend_lifecycle`
(0 when the early average is not positive). -/
def growthRateQ (xs : List ℚ) : ℚ :=
  let recent := meanQ (lastN 3 xs)
  let early := meanQ (xs.take 3)
  if 0 < early then (recent - early) / early * 100 else 0

/-- `detect_trend_lifecycle`.  Returns `(phase, score, description)`.
The human-readable descriptions interpolate the growth rate; numeric
formatting is abstracted by `toString`. -/
def detect_trend_lifecycle (xs : List ℚ) (_keyword : String) : String × ℚ × String :=
  if xs.length < 5 then ("insufficient_data", 50, "Not enough data for lifecycle analysis")
  else
    let mean_value := meanQ xs
    let max_value := maxQ xs
    let recent_avg := meanQ (lastN 3 xs)
    let early_avg := meanQ (xs.take 3)
    let growth_rate := growthRateQ xs
    let slope := slopeQ xs
    if mean_value < 20 ∧ 1 < slope then
      ("emerging", 75, "Emerging trend with " ++ toString growth_rate ++ "% growth - Great opportunity!")
    else if 2 < slope ∧ early_avg * (3 / 2) < recent_avg then
      ("growing", 85, "Rapidly growing trend (" ++ toString growth_rate ++ "% growth) - Excellent timing!")
    else if (1 / 2 : ℚ) < slope ∧ mean_value * (9 / 10) < recent_avg then
      ("growing", 70, "Growing trend (" ++ toString growth_rate ++ "% growth) - Good opportunity")
    else if |slope| < (1 / 2 : ℚ) ∧ 70 < mean_value then
      ("mature", 60, "Mature trend with stable high interest - Safe choice")
    else if max_value * (95 / 100) ≤ recent_avg ∧ slope < 1 then
      ("peak", 55, "Trend at peak - Consider timing carefully")
    else if slope < -1 ∧ recent_avg < mean_value then
      ("declining", 30, "Declining trend (" ++ toString growth_rate ++ "% change) - Consider alternatives")
    else if slope < 0 then
      ("declining", 40, "Trend losing momentum - May still have value")
    else
      ("stable", 50, "Stable trend - Moderate opportunity")

/-- The running tail of the exponential smoothing: given the previous
smoothed value, smooth the remaining raw values with `α = 0.3`. -/
def smoothAux (prev : ℚ) : List ℚ → List ℚ
  | [] => []
  | x :: xs =>
    let s := (3 / 10 : ℚ) * x + (7 / 10 : ℚ) * prev
    s :: smoothAux s xs

/-- The `smoothed` list of `forecast_trend`: `s[0]=x[0]`,
`s[i]=0.3·x[i]+0.7·s[i-1]`. -/
def smoothed : List ℚ → List ℚ
  | [] => []
  | x :: xs => x :: smoothAux x xs

/-- `forecast_trend`.  Returns `(forecasts, confidence)`. -/
def forecast_trend (xs : List ℚ) (periods_ahead : ℕ) : List ℚ × ℚ :=
  if xs.length < 4 then ([], 0)
  else
    let trend := if 2 ≤ xs.length then (lastD xs - headD xs) / xs.length else 0
    let last_value := lastD (smoothed xs)
    let forecasts := (List.range periods_ahead).map fun (i : ℕ) =>
      max 0 (min 100 (last_value + trend * ((i : ℚ) + 1)))
    let variance := varQ xs
    let confidence : ℚ := if variance < 100 then 80 else if variance < 300 then 60 else 40
    (forecasts, confidence)

/-- One anomaly record of `detect_anomalies`.  The z-score is irrational
in general; it is carried exactly by its square `zsq = z²` (the source
only compares `z` against 2 and 3, which is `zsq` against 4 and 9). -/
structure Anomaly where
  index : ℕ
  value : ℚ
  zsq : ℚ
  type : String
  magnitude : String
deriving DecidableEq

/-- `detect_anomalies`: population z-scores, flag `|z| > 2`, spike/drop
by comparison with the mean, extreme iff `|z| > 3`. -/
def detect_anomalies (xs : List ℚ) : List Anomaly :=
  if xs.length < 5 then []
  else
    let mean := meanQ xs
    let variance := varQ xs
    if variance = 0 then []
    else
      (List.range xs.length).filterMap fun i =>
        let x := getQ xs i
        if 4 * variance < (x - mean) ^ 2 then
          some { index := i, value := x, zsq := (x - mean) ^ 2 / variance
                 type := if mean < x then "spike" else "drop"
                 magnitude := if 9 * variance < (x - mean) ^ 2 then "extreme" else "significant" }
        else none

/-- Lag-`period` autocorrelation of `analyze_seasonality`, normalized by
`n' · var` with `n' = n - period`. -/
def autocorrQ (xs : List ℚ) (period : ℕ) : ℚ :=
  let mean := meanQ xs
  let n := xs.length - period
  (((List.range n).map fun i => (getQ xs i - mean) * (getQ xs (i + period) - mean)).sum) /
    ((n : ℚ) * varQ xs)

/-- `analyze_seasonality`.  Returns `(has_seasonality, score, description)`. -/
def analyze_seasonality (xs : List ℚ) (period : ℕ := 7) : Bool × ℚ × String :=
  if xs.length < period * 2 then (false, 0, "Insufficient data for seasonality analysis")
  else if xs.length ≤ period then (false, 0, "Insufficient data length")
  else
    let variance := varQ xs
    if variance = 0 then (false, 0, "No variance in data")
    else
      let autocorr := autocorrQ xs period
      if (1 / 2 : ℚ) < autocorr then
        (true, autocorr * 100, "Strong seasonal pattern detected (correlation: " ++ toString autocorr ++ ")")
      else if (3 / 10 : ℚ) < autocorr then
        (true, autocorr * 100, "Moderate seasonal pattern (correlation: " ++ toString autocorr ++ ")")
      else (false, autocorr * 100, "No significant seasonal pattern")

/-- Factor 1 of `calculate_trend_momentum`: `min(100, 50 + growth)` with
growth from the recent-3 versus early-3 averages. -/
def growthScoreQ (xs : List ℚ) : ℚ :=
  let recent_avg := meanQ (lastN 3 xs)
  let earlier_avg := meanQ (xs.take 3)
  let growth := if 0 < earlier_avg then (recent_avg - earlier_avg) / earlier_avg * 100 else 0
  min 100 (50 + growth)

/-- Factor 4 of `calculate_trend_momentum`: `min(100, values[-1])`. -/
def levelScoreQ (xs : List ℚ) : ℚ := min 100 (lastD xs)

/-- The momentum description thresholds of `calculate_trend_momentum`. -/
def momentumDescRel (m : ℝ) (d : String) : Prop :=
  (75 < m ∧ d = "strong_upward") ∨
  (¬75 < m ∧ 60 < m ∧ d = "moderate_upward") ∨
  (¬75 < m ∧ ¬60 < m ∧ 40 < m ∧ d = "neutral") ∨
  (¬75 < m ∧ ¬60 < m ∧ ¬40 < m ∧ 25 < m ∧ d = "moderate_downward") ∨
  (¬75 < m ∧ ¬60 < m ∧ ¬40 < m ∧ ¬25 < m ∧ d = "strong_downward")

/-- `calculate_trend_momentum`, relationally: the consistency factor
divides `np.std` (a real square root) by `mean + 1`, so the result is a
real number.  `out` is the returned `(momentum, description)`. -/
def calculate_trend_momentum (xs : List ℚ) (out : ℝ × String) : Prop :=
  if xs.length < 3 then out = (50, "neutral")
  else
    ∃ m : ℝ,
      m = (growthScoreQ xs : ℝ) * (3 / 10) +
          ((calculate_trend_velocity xs).1 : ℝ) * (3 / 10) +
          max 0 (100 - Real.sqrt (varQ xs) / ((meanQ xs : ℝ) + 1) * 20) * (1 / 5) +
          (levelScoreQ xs : ℝ) * (1 / 5) ∧
      out.1 = m ∧ momentumDescRel m out.2

/-- Population covariance `Σ (x-x̄)(y-ȳ) / n` of two equal-length series
(the numerator of `np.corrcoef`). -/
def covQ (xs ys : List ℚ) : ℚ :=
  (((List.range xs.length).map fun (i : ℕ) =>
    (getQ xs i - meanQ xs) * (getQ ys i - meanQ ys)).sum) / xs.length

/-- One correlation record of `cross_correlate_trends`.  The Pearson
coefficient `r = cov / √(var₁·var₂)` is irrational in general; it is
carried exactly by the covariance `cov` of the truncated pair and the
product `varProd = var₁·var₂`, so `r = cov / √varProd`.  The source's
comparisons `|r| > 0.5`, `|r| > 0.7`, `r > 0` are the exact rational
tests `4·cov² > varProd`, `100·cov² > 49·varProd`, `cov > 0`. -/
structure Corr where
  keyword1 : String
  keyword2 : String
  cov : ℚ
  varProd : ℚ
  strength : String
  ctype : String
deriving DecidableEq

/-- The body of the double loop of `cross_correlate_trends` for one
`(i, j)` pair: truncate to the shorter length, require ≥ 3 points, skip
zero variance (`std > 0 ⟺ var > 0`), keep `|r| > 0.5`. -/
def corrOfPair (p : (String × List ℚ) × (String × List ℚ)) : Option Corr :=
  let min_len := min p.1.2.length p.2.2.length
  if min_len < 3 then none
  else
    let data1 := p.1.2.take min_len
    let data2 := p.2.2.take min_len
    if 0 < varQ data1 ∧ 0 < varQ data2 then
      let cov := covQ data1 data2
      let vp := varQ data1 * varQ data2
      if vp < 4 * cov ^ 2 then
        some { keyword1 := p.1.1, keyword2 := p.2.1, cov := cov, varProd := vp,
               strength := if 49 * vp < 100 * cov ^ 2 then "strong" else "moderate",
               ctype := if 0 < cov then "positive" else "negative" }
      else none
    else none

/-- All index pairs `i < j` of a list, in the source's loop order. -/
def pairsList : List α → List (α × α)
  | [] => []
  | x :: xs => (xs.map fun y => (x, y)) ++ pairsList xs

/-- The sort key of `cross_correlate_trends`: `r² = cov²/varProd`,
which orders exactly as `|r|` does. -/
def corrKey (c : Corr) : ℚ := c.cov ^ 2 / c.varProd

/-- `cross_correlate_trends`: every unordered pair once, filtered, then
sorted by descending `|r|`. -/
def cross_correlate_trends (m : List (String × List ℚ)) : List Corr :=
  if m.length < 2 then []
  else ((pairsList m).filterMap corrOfPair).mergeSort fun a b => decide (corrKey b ≤ corrKey a)

/-- The fields of the `topic_data` dict built by `get_trending_topics`
that are consumed downstream by `calculate_trend_score` (plus the
comprehensive `score`). -/
structure Topic where
  name : String
  score : ℤ
  avg_interest : ℤ
  velocity : String
  acceleration : String
  lifecycle : String
  momentum_score : ℤ
  viral_indicator : Bool
  forecast : List ℚ
  forecast_confidence : ℚ
  correlations : List (String × String)
deriving DecidableEq

/-- The analysis part of `get_trending_topics` for one keyword with
series `xs`: the topic record it builds (single-keyword analysis, so no
correlations are attached).  Relational because the momentum factor and
the comprehensive score involve `np.std`, a real square root.
`momentum_score` and `score` are `int()`-truncated as in the source. -/
def buildTopic (kw : String) (xs : List ℚ) (t : Topic) : Prop :=
  ∃ (mom : ℝ) (momDesc : String) (momInt compInt : ℤ),
    calculate_trend_momentum xs (mom, momDesc) ∧
    pyIntRel mom momInt ∧
    pyIntRel ((meanQ xs : ℝ) * (1 / 4) + ((calculate_trend_velocity xs).1 : ℝ) * (1 / 5) +
      ((detect_trend_lifecycle xs kw).2.1 : ℝ) * (1 / 4) + mom * (1 / 5) +
      ((calculate_trend_acceleration xs).1 : ℝ) * (1 / 10)) compInt ∧
    t = { name := kw, score := compInt, avg_interest := pyIntQ (meanQ xs),
          velocity := (calculate_trend_velocity xs).2,
          acceleration := (calculate_trend_acceleration xs).2,
          lifecycle := (detect_trend_lifecycle xs kw).1,
          momentum_score := momInt,
          viral_indicator := (detect_anomalies xs).any fun a => a.magnitude == "extreme",
          forecast := (forecast_trend xs 3).1,
          forecast_confidence := (forecast_trend xs 3).2,
          correlations := [] }

/-- The content fields `calculate_trend_score` reads from `video_data`. -/
structure VideoData where
  title : String
  description : String
  tags : List String
  upload_date : String
deriving DecidableEq

/-- One entry of `related_tags` (only `tag` is read by the scorer). -/
structure RelatedTag where
  tag : String
  score : ℚ
deriving DecidableEq

/-- The trending-keyword match test of `calculate_trend_score`:
`topic_name in video_title or topic_name in video_desc or topic_name in
video_tags` (substring on title/description, set membership on the
lowered tag set). -/
def topicMatches (v : VideoData) (t : Topic) : Bool :=
  let tn := lowerStr t.name
  strIn tn (lowerStr v.title) || strIn tn (lowerStr v.description) ||
    (v.tags.map lowerStr).contains tn

/-- Accumulator of the trending-topic matching loop of
`calculate_trend_score`. -/
structure MatchAcc where
  score : ℤ
  fb : List String
  trending : ℕ
  highValue : ℕ
  viral : ℕ
  emerging : ℕ
deriving DecidableEq

/-- One iteration of the trending-topic loop of `calculate_trend_score`:
base 10 per match, lifecycle modifier, momentum bonus, viral bonus,
forecast-improving bonus, with the source's feedback strings. -/
def matchStep (v : VideoData) (acc : MatchAcc) (t : Topic) : MatchAcc :=
  if topicMatches v t then
    let tn := lowerStr t.name
    let lifePart : ℤ × List String × ℕ :=
      if t.lifecycle = "emerging" then
        (15, ["🌱 Using emerging trend \"" ++ tn ++ "\" - excellent timing!"], 1)
      else if t.lifecycle = "growing" then
        (12, ["📈 Using growing trend \"" ++ tn ++ "\" - great opportunity!"], 0)
      else if t.lifecycle = "mature" then (5, [], 0)
      else if t.lifecycle = "declining" then
        (-5, ["⚠ Trend \"" ++ tn ++ "\" is declining - consider fresher topics"], 0)
      else (0, [], 0)
    let momPart : ℤ × ℕ :=
      if 75 < t.momentum_score then (10, 1)
      else if 60 < t.momentum_score then (5, 0)
      else (0, 0)
    let viralPart : ℤ × List String × ℕ :=
      if t.viral_indicator then
        (20, ["⚡ VIRAL POTENTIAL: \"" ++ tn ++ "\" showing explosive growth!"], 1)
      else (0, [], 0)
    let fcPart : ℤ × List String :=
      if 70 < t.forecast_confidence then
        if t.forecast ≠ [] ∧ (t.avg_interest : ℚ) < lastD t.forecast then
          (8, ["🔮 Trend \"" ++ tn ++ "\" predicted to grow stronger"])
        else (0, [])
      else (0, [])
    { score := acc.score + (10 + lifePart.1 + momPart.1 + viralPart.1 + fcPart.1),
      fb := acc.fb ++ lifePart.2.1 ++ viralPart.2.1 ++ fcPart.2,
      trending := acc.trending + 1,
      highValue := acc.highValue + momPart.2,
      viral := acc.viral + viralPart.2.2,
      emerging := acc.emerging + lifePart.2.2 }
  else acc

/-- The related-trend match test of `calculate_trend_score`:
`any(related_tag in vt for vt in video_tags) or related_tag in
video_title or related_tag in video_desc`. -/
def relMatches (v : VideoData) (rt : RelatedTag) : Bool :=
  let r := lowerStr rt.tag
  (v.tags.map lowerStr).any (fun vt => strIn r vt) || strIn r (lowerStr v.title) ||
    strIn r (lowerStr v.description)

/-- One iteration of the related-tags loop: +5 per match. -/
def relStep (v : VideoData) (acc : ℤ × ℕ) (rt : RelatedTag) : ℤ × ℕ :=
  if relMatches v rt then (acc.1 + 5, acc.2 + 1) else acc

/-- The "summary feedback for matches" block of `calculate_trend_score`:
inserts the match-count feedback at the head, or applies the −10
no-match penalty. -/
def matchesSummary (a : MatchAcc) : ℤ × List String :=
  if 0 < a.trending then
    let fbA := insertAt 0 ("✓ Video uses " ++ toString a.trending ++ " trending keyword(s)") a.fb
    let fbB :=
      if 0 < a.highValue then
        insertAt 1 ("⭐ " ++ toString a.highValue ++ " high-momentum trend(s) detected!") fbA
      else fbA
    (a.score, fbB)
  else (a.score - 10, a.fb ++ ["⚠ Video does not use current trending keywords"])

/-- The feedback appended after the related-tags loop. -/
def relatedSummary (rm : ℕ) (fb : List String) : List String :=
  if 0 < rm then fb ++ ["✓ Video aligns with " ++ toString rm ++ " related trend(s)"]
  else fb ++ ["⚠ Consider incorporating trending related topics"]

/-- The "enhanced momentum analysis" block of `calculate_trend_score`:
+15 if any topic's velocity contains "rising", +10 if any topic's
acceleration contains "accelerating", +5 once for the first topic
correlated with ≥ 2 others. -/
def momentumExtras (topics : List Topic) (s : ℤ) (fb : List String) : ℤ × List String :=
  if topics ≠ [] then
    let risingList := topics.filter fun t => strIn "rising" (lowerStr t.velocity)
    let accelList := topics.filter fun t => strIn "accelerating" t.acceleration
    let sA :=
      if risingList ≠ [] then
        (s + 15, fb ++ ["✓ " ++ toString risingList.length ++ " keyword(s) have rising momentum"])
      else (s, fb)
    let sB :=
      if accelList ≠ [] then
        (sA.1 + 10, sA.2 ++ ["🚀 " ++ toString accelList.length ++ " keyword(s) are accelerating!"])
      else sA
    match topics.find? (fun t => 2 ≤ t.correlations.length) with
    | some t =>
      (sB.1 + 5, sB.2 ++ ["🔗 Trend \"" ++ t.name ++ "\" correlates with multiple other trends - strong synergy!"])
    | none => sB
  else (s, fb)

/-- The "timeliness score" block of `calculate_trend_score`: the upload
recency bucket derived from the `upload_date` string. -/
def uploadBonus (v : VideoData) (s : ℤ) (fb : List String) : ℤ × List String :=
  if strIn "ago" (lowerStr v.upload_date) then
    if strIn "day" v.upload_date || strIn "hour" v.upload_date then
      (s + 15, fb ++ ["✓ Recent video - optimal for trending topics"])
    else if strIn "week" v.upload_date then (s + 10, fb ++ ["✓ Recent video"])
    else (s + 5, fb ++ ["⚠ Older video - trends may have shifted"])
  else (s, fb)

/-- The "strategic recommendations" block of `calculate_trend_score`. -/
def strategyFeedback (a : MatchAcc) (fb : List String) : List String :=
  if 0 < a.emerging then
    fb ++ ["💡 Strategy: You\x27re ahead of the curve with emerging trends!"]
  else if 0 < a.viral then
    fb ++ ["💡 Strategy: Capitalize on viral potential with immediate promotion!"]
  else if a.trending = 0 then
    fb ++ ["💡 Strategy: Update tags with currently trending keywords for better visibility"]
  else fb

/-- `calculate_trend_score` (src/trend_analyzer.py): the content/trend
alignment score of a video against the analyzed topics and related
tags.  Returns the score and the feedback list (the source joins the
list with a newline before returning). -/
def calculate_trend_score (v : VideoData) (topics : List Topic) (related : List RelatedTag) :
    ℤ × List String :=
  let a := topics.foldl (matchStep v) ⟨0, [], 0, 0, 0, 0⟩
  let sfb1 := matchesSummary a
  let srel := (related.take 10).foldl (relStep v) (sfb1.1, 0)
  let fb2 := relatedSummary srel.2 sfb1.2
  let sfb3 := momentumExtras topics srel.1 fb2
  let sfb4 := uploadBonus v sfb3.1 sfb3.2
  let fb5 := strategyFeedback a sfb4.2
  if topics = [] ∧ related = [] then
    (50, ["⚠ Unable to retrieve trend data - neutral score assigned"])
  else (min 100 sfb4.1, fb5)

/-- The per-match score contribution, itemized as the spec lists it
(with the source's base of 10): used to restate what the matching loop
adds per matched keyword. -/
def bonusLifecycle (lc : String) : ℤ :=
  if lc = "emerging" then 15 else if lc = "growing" then 12
  else if lc = "mature" then 5 else if lc = "declining" then -5 else 0

/-- The momentum bonus of the matching loop. -/
def bonusMomentum (ms : ℤ) : ℤ := if 75 < ms then 10 else if 60 < ms then 5 else 0

/-- The viral bonus of the matching loop. -/
def bonusViral (t : Topic) : ℤ := if t.viral_indicator then 20 else 0

/-- The forecast-improving bonus of the matching loop. -/
def bonusForecast (t : Topic) : ℤ :=
  if 70 < t.forecast_confidence ∧ t.forecast ≠ [] ∧ (t.avg_interest : ℚ) < lastD t.forecast
  then 8 else 0

/-- The total score added for one matched trending keyword. -/
def matchBonus (t : Topic) : ℤ :=
  10 + bonusLifecycle t.lifecycle + bonusMomentum t.momentum_score + bonusViral t + bonusForecast t

/-- The effect of one `analyze_trends` call on the orchestrator's
`trend_history` field (the `deque(maxlen=100)` created in `__init__`):
no statement of `analyze_trends` (or of any other method) reads or
writes `trend_history`, so the effect is the identity. -/
def analyze_trends_historyEffect (history : List String) : List String := history

/-- The strictly increasing arithmetic series `a, a+d, …, a+(n-1)d`. -/
def arithSeries (a d : ℚ) (n : ℕ) : List ℚ := (List.range n).map fun (i : ℕ) => a + d * i

/-- The 7-point weekly series of the end-to-end scenario. -/
def series7 : List ℚ := [10, 12, 15, 20, 28, 35, 45]

/-- The topic record `get_trending_topics` builds for the keyword
"python tutorial" on `series7` (all fields evaluated). -/
def topic7 : Topic :=
  { name := "python tutorial", score := 62, avg_interest := 23,
    velocity := "rapidly_rising", acceleration := "slowly_accelerating",
    lifecycle := "growing", momentum_score := 77, viral_indicator := false,
    forecast := [4360749 / 125000, 4985749 / 125000, 5610749 / 125000],
    forecast_confidence := 60, correlations := [] }

/-- A video whose title contains the keyword of `topic7`. -/
def vMatch7 : VideoData := ⟨"python tutorial for beginners", "", [], ""⟩

/-- The same video with a title containing no matching keyword. -/
def vNoMatch7 : VideoData := ⟨"cooking show", "", [], ""⟩

/-- A 20-point series in [0,100] collapsing from a positive early
average to a final value of 0, with one late spike: its momentum is
negative. -/
def negSeries : List ℚ :=
  [1, 0, 0, 0, 0, 0, 0, 0, 0, 0, 0, 0, 0, 0, 0, 0, 100, 0, 0, 0]

end TrendAnalyzer

namespace TrendAnalyzer

/-- C6: when no trending topics and no related tags are available, the
content-scoring operation returns exactly score 50 with the single
neutral feedback message, regardless of the content fields. -/
theorem no_data_neutral_score (v : VideoData) :
    calculate_trend_score v [] [] =
      (50, ["⚠ Unable to retrieve trend data - neutral score assigned"]) := by
  simp [calculate_trend_score]

/-- Witness for C6 at a concrete video. -/
theorem no_data_neutral_score_witness :
    calculate_trend_score ⟨"My Video", "about stuff", ["tag1"], "2 days ago"⟩ [] [] =
      (50, ["⚠ Unable to retrieve trend data - neutral score assigned"]) :=
  no_data_neutral_score _

/-- C3: the lifecycle decision ladder is evaluated first-match-wins:
whenever a series of length ≥ 5 satisfies the emerging condition
(mean < 20 and slope > 1), the classifier returns phase "emerging" with
score 75 — also when a later branch's condition holds as well. -/
theorem lifecycle_emerging_precedence (xs : List ℚ) (kw : String)
    (hlen : 5 ≤ xs.length) (hmean : meanQ xs < 20) (hslope : 1 < slopeQ xs) :
    (detect_trend_lifecycle xs kw).1 = "emerging" ∧
      (detect_trend_lifecycle xs kw).2.1 = 75 := by
  have h5 : ¬ xs.length < 5 := by omega
  simp [detect_trend_lifecycle, h5, hmean, hslope]

/-- Witness for C3: a series satisfying both the emerging condition and
the later growing condition (branch 3) resolves to emerging. -/
theorem lifecycle_emerging_precedence_witness :
    5 ≤ ([10, 12, 15, 18, 20] : List ℚ).length ∧
      meanQ [10, 12, 15, 18, 20] < 20 ∧ 1 < slopeQ [10, 12, 15, 18, 20] ∧
      (1 / 2 : ℚ) < slopeQ [10, 12, 15, 18, 20] ∧
      meanQ [10, 12, 15, 18, 20] * (9 / 10) < meanQ (lastN 3 [10, 12, 15, 18, 20]) ∧
      (detect_trend_lifecycle [10, 12, 15, 18, 20] "k").1 = "emerging" ∧
      (detect_trend_lifecycle [10, 12, 15, 18, 20] "k").2.1 = 75 :=
  ⟨by decide, by norm_num [meanQ],
    by norm_num [slopeQ, getQ, meanQ, List.range_succ],
    by norm_num [slopeQ, getQ, meanQ, List.range_succ],
    by norm_num [meanQ, lastN],
    (lifecycle_emerging_precedence [10, 12, 15, 18, 20] "k" (by decide)
      (by norm_num [meanQ]) (by norm_num [slopeQ, getQ, meanQ, List.range_succ])).1,
    (lifecycle_emerging_precedence [10, 12, 15, 18, 20] "k" (by decide)
      (by norm_num [meanQ]) (by norm_num [slopeQ, getQ, meanQ, List.range_succ])).2⟩

/-- C5 (amended): every analyzer degrades to its documented default on
short input — velocity `(0, stable)` below 2 points, acceleration
`(0, steady)` and momentum `(50, neutral)` below 3, forecaster
`([], 0)` below 4, anomaly detector `[]` and lifecycle
`(insufficient_data, 50, message)` below 5; a zero-variance series
yields no anomalies, and yields the no-variance seasonality result
`(false, 0, "No variance in data")` when at least 2×period points are
supplied (shorter zero-variance series get the insufficient-data
message instead); fewer than 2 series yield no correlations. -/
theorem analyzers_insufficient_data_defaults :
    (∀ xs : List ℚ, xs.length < 2 → calculate_trend_velocity xs = (0, "stable")) ∧
      (∀ xs : List ℚ, xs.length < 3 → calculate_trend_acceleration xs = (0, "steady")) ∧
      (∀ (xs : List ℚ) (out : ℝ × String), xs.length < 3 →
        calculate_trend_momentum xs out → out = (50, "neutral")) ∧
      (∀ (xs : List ℚ) (p : ℕ), xs.length < 4 → forecast_trend xs p = ([], 0)) ∧
      (∀ xs : List ℚ, xs.length < 5 → detect_anomalies xs = []) ∧
      (∀ (xs : List ℚ) (kw : String), xs.length < 5 →
        detect_trend_lifecycle xs kw =
          ("insufficient_data", 50, "Not enough data for lifecycle analysis")) ∧
      (∀ xs : List ℚ, varQ xs = 0 → detect_anomalies xs = []) ∧
      (∀ xs : List ℚ, varQ xs = 0 → 14 ≤ xs.length →
        analyze_seasonality xs 7 = (false, 0, "No variance in data")) ∧
      (∀ m : List (String × List ℚ), m.length < 2 → cross_correlate_trends m = []) := by
  refine ⟨?_, ?_, ?_, ?_, ?_, ?_, ?_, ?_, ?_⟩
  · intro xs h; simp [calculate_trend_velocity, h]
  · intro xs h; simp [calculate_trend_acceleration, h]
  · intro xs out h hm
    unfold calculate_trend_momentum at hm
    rwa [if_pos h] at hm
  · intro xs p h; simp [forecast_trend, h]
  · intro xs h; simp [detect_anomalies, h]
  · intro xs kw h; simp [detect_trend_lifecycle, h]
  · intro xs h
    by_cases h5 : xs.length < 5
    · simp [detect_anomalies, h5]
    · simp [detect_anomalies, h5, h]
  · intro xs h h14
    have g1 : ¬ xs.length < 7 * 2 := by omega
    have g2 : ¬ xs.length ≤ 7 := by omega
    simp [analyze_seasonality, g1, g2, h]
  · intro m h; simp [cross_correlate_trends, h]

/-- Witness for C5 at concrete inputs. -/
theorem analyzers_insufficient_data_defaults_witness :
    calculate_trend_velocity [7] = (0, "stable") ∧
      calculate_trend_acceleration [1, 2] = (0, "steady") ∧
      (((50 : ℝ), "neutral") : ℝ × String) = (50, "neutral") ∧
      forecast_trend [1, 2, 3] 3 = ([], 0) ∧
      detect_anomalies [1, 2, 3, 4] = [] ∧
      detect_trend_lifecycle [1, 2, 3, 4] "k" =
        ("insufficient_data", 50, "Not enough data for lifecycle analysis") ∧
      detect_anomalies [5, 5, 5, 5, 5] = [] ∧
      analyze_seasonality [5, 5, 5, 5, 5, 5, 5, 5, 5, 5, 5, 5, 5, 5] 7 =
        (false, 0, "No variance in data") ∧
      cross_correlate_trends [("a", [1, 2, 3])] = [] :=
  ⟨analyzers_insufficient_data_defaults.1 [7] (by decide),
    analyzers_insufficient_data_defaults.2.1 [1, 2] (by decide),
    analyzers_insufficient_data_defaults.2.2.1 [1, 2] _ (by decide)
      (by simp [calculate_trend_momentum]),
    analyzers_insufficient_data_defaults.2.2.2.1 [1, 2, 3] 3 (by decide),
    analyzers_insufficient_data_defaults.2.2.2.2.1 [1, 2, 3, 4] (by decide),
    analyzers_insufficient_data_defaults.2.2.2.2.2.1 [1, 2, 3, 4] "k" (by decide),
    analyzers_insufficient_data_defaults.2.2.2.2.2.2.1 [5, 5, 5, 5, 5]
      (by norm_num [varQ, getQ, meanQ, List.range_succ]),
    analyzers_insufficient_data_defaults.2.2.2.2.2.2.2.1 [5, 5, 5, 5, 5, 5, 5, 5, 5, 5, 5, 5, 5, 5]
      (by norm_num [varQ, getQ, meanQ, List.range_succ]) (by decide),
    analyzers_insufficient_data_defaults.2.2.2.2.2.2.2.2 [("a", [1, 2, 3])] (by decide)⟩

/-- C5 counterexample to the claim as stated: a zero-variance series
shorter than 2×period gets the insufficient-data message from the
seasonality analyzer, not the no-variance message. -/
theorem seasonality_zero_variance_cex :
    varQ [5, 5, 5, 5, 5] = 0 ∧
      analyze_seasonality [5, 5, 5, 5, 5] 7 =
        (false, 0, "Insufficient data for seasonality analysis") ∧
      ("Insufficient data for seasonality analysis" : String) ≠ "No variance in data" :=
  ⟨by norm_num [varQ, getQ, meanQ, List.range_succ],
    by simp [analyze_seasonality], by decide⟩

/-- A matched topic contributes exactly `matchBonus t` to the score. -/
theorem matchStep_score_of_matches (v : VideoData) (acc : MatchAcc) (t : Topic)
    (hm : topicMatches v t = true) :
    (matchStep v acc t).score = acc.score + matchBonus t := by
  simp only [matchStep, hm, if_true,
    matchBonus, bonusLifecycle, bonusMomentum, bonusViral, bonusForecast]
  split_ifs <;> simp_all

/-- A matched topic increments the match counter. -/
theorem matchStep_trending_of_matches (v : VideoData) (acc : MatchAcc) (t : Topic)
    (hm : topicMatches v t = true) :
    (matchStep v acc t).trending = acc.trending + 1 := by
  simp only [matchStep, hm, if_true]

/-- Folding the matching loop over all-matching topics: the score is the
sum of the per-topic bonuses and every topic is counted. -/
theorem foldl_matchStep_all_match (v : VideoData) (ts : List Topic) (acc : MatchAcc)
    (hm : ∀ t ∈ ts, topicMatches v t = true) :
    (ts.foldl (matchStep v) acc).score = acc.score + (ts.map matchBonus).sum ∧
      (ts.foldl (matchStep v) acc).trending = acc.trending + ts.length := by
  induction ts generalizing acc with
  | nil => simp
  | cons t ts ih =>
    have hmt : topicMatches v t = true := hm t (by simp)
    have hrest : ∀ x ∈ ts, topicMatches v x = true := fun x hx => hm x (by simp [hx])
    obtain ⟨h1, h2⟩ := ih (matchStep v acc t) hrest
    rw [List.foldl_cons]
    refine ⟨?_, ?_⟩
    · rw [h1, matchStep_score_of_matches v acc t hmt]
      simp
      ring
    · rw [h2, matchStep_trending_of_matches v acc t hmt]
      simp
      omega

/-- When no topic velocity contains "rising", no acceleration contains
"accelerating", and no topic has ≥ 2 correlations, the momentum-extras
block leaves the score unchanged. -/
theorem momentumExtras_score_id (topics : List Topic) (s : ℤ) (fb : List String)
    (hvel : ∀ t ∈ topics, strIn "rising" (lowerStr t.velocity) = false)
    (hacc : ∀ t ∈ topics, strIn "accelerating" t.acceleration = false)
    (hcor : ∀ t ∈ topics, t.correlations.length < 2) :
    (momentumExtras topics s fb).1 = s := by
  have h1 : topics.filter (fun t => strIn "rising" (lowerStr t.velocity)) = [] := by
    rw [List.filter_eq_nil_iff]
    intro t ht
    simp [hvel t ht]
  have h2 : topics.filter (fun t => strIn "accelerating" t.acceleration) = [] := by
    rw [List.filter_eq_nil_iff]
    intro t ht
    simp [hacc t ht]
  have h3 : topics.find? (fun t => 2 ≤ t.correlations.length) = none := by
    rw [List.find?_eq_none]
    intro t ht
    simpa using hcor t ht
  unfold momentumExtras
  split_ifs with h <;> simp [h1, h2, h3]

/-- Without "ago" in the lowered upload date, the timeliness block
leaves the score unchanged. -/
theorem uploadBonus_score_id (v : VideoData) (s : ℤ) (fb : List String)
    (hup : strIn "ago" (lowerStr v.upload_date) = false) :
    (uploadBonus v s fb).1 = s := by
  simp [uploadBonus, hup]

/-- C1 (amended): the aggregator's content-alignment score adds, per
matched trending keyword, a base bonus of +10 (the source's base, not
the claimed +15), then the lifecycle modifier (+15 emerging, +12
growing, +5 mature, −5 declining), the momentum bonus (+10 if momentum
score > 75, else +5 if > 60), the viral bonus (+20), and the
forecast-improving bonus (+8 when the last forecast exceeds the average
interest and confidence > 70): with every topic matched and the other
score sources quiet, the final score is exactly the capped sum of those
per-match contributions. -/
theorem match_bonus_itemized (v : VideoData) (ts : List Topic)
    (hne : ts ≠ [])
    (hmatch : ∀ t ∈ ts, topicMatches v t = true)
    (hvel : ∀ t ∈ ts, strIn "rising" (lowerStr t.velocity) = false)
    (hacc : ∀ t ∈ ts, strIn "accelerating" t.acceleration = false)
    (hcor : ∀ t ∈ ts, t.correlations.length < 2)
    (hup : strIn "ago" (lowerStr v.upload_date) = false) :
    (calculate_trend_score v ts []).1 = min 100 ((ts.map matchBonus).sum) := by
  obtain ⟨h1, h2⟩ := foldl_matchStep_all_match v ts ⟨0, [], 0, 0, 0, 0⟩ hmatch
  have htr : 0 < (ts.foldl (matchStep v) ⟨0, [], 0, 0, 0, 0⟩).trending := by
    rw [h2]
    cases ts with
    | nil => exact absurd rfl hne
    | cons a l => simp
  have hsummary : (matchesSummary (ts.foldl (matchStep v) ⟨0, [], 0, 0, 0, 0⟩)).1 =
      (ts.foldl (matchStep v) ⟨0, [], 0, 0, 0, 0⟩).score := by
    unfold matchesSummary
    rw [if_pos htr]
  unfold calculate_trend_score
  rw [if_neg (by simp [hne])]
  simp only [List.take_nil, List.foldl_nil]
  rw [uploadBonus_score_id v _ _ hup, momentumExtras_score_id ts _ _ hvel hacc hcor,
    hsummary, h1]
  simp

/-- C1 counterexample to the claim as stated: a matched topic with a
lifecycle outside the modifier table, momentum 50, no viral indicator
and no forecast confidence contributes 10, not the claimed base 15. -/
theorem base_bonus_cex :
    (calculate_trend_score ⟨"use foo now", "", [], ""⟩
        [⟨"foo", 0, 0, "stable", "steady", "stable", 50, false, [], 0, []⟩] []).1 = 10 ∧
      (10 : ℤ) ≠ 15 := by
  refine ⟨?_, by decide⟩
  simp [calculate_trend_score, matchStep, matchesSummary, relatedSummary, momentumExtras,
    uploadBonus, strategyFeedback, topicMatches, relMatches]
  decide

/-- Witness for C1 at a concrete video and topic list. -/
theorem match_bonus_itemized_witness :
    (calculate_trend_score ⟨"use foo now", "", [], ""⟩
        [⟨"foo", 0, 0, "stable", "steady", "emerging", 80, true, [], 0, []⟩] []).1 =
      min 100 (([⟨"foo", 0, 0, "stable", "steady", "emerging", 80, true, [], 0, []⟩] :
          List Topic).map matchBonus).sum :=
  match_bonus_itemized ⟨"use foo now", "", [], ""⟩ _ (by decide) (by decide) (by decide)
    (by decide) (by decide) (by decide)

/-- The matching loop never decreases the score (each matched topic
adds at least 10 − 5 = 5). -/
theorem matchStep_score_le (v : VideoData) (acc : MatchAcc) (t : Topic) :
    acc.score ≤ (matchStep v acc t).score := by
  unfold matchStep
  split_ifs <;> simp

/-- The fold of the matching loop keeps the score nonnegative. -/
theorem foldl_matchStep_score_nonneg (v : VideoData) (ts : List Topic) (acc : MatchAcc)
    (h : 0 ≤ acc.score) : 0 ≤ (ts.foldl (matchStep v) acc).score := by
  induction ts generalizing acc with
  | nil => simpa
  | cons t ts ih =>
    rw [List.foldl_cons]
    exact ih _ (le_trans h (matchStep_score_le v acc t))

/-- The match summary subtracts at most 10. -/
theorem matchesSummary_score_lb (a : MatchAcc) : a.score - 10 ≤ (matchesSummary a).1 := by
  unfold matchesSummary
  split_ifs <;> simp

/-- The related-tags loop never decreases the score. -/
theorem foldl_relStep_fst_le (v : VideoData) (rts : List RelatedTag) (p : ℤ × ℕ) :
    p.1 ≤ (rts.foldl (relStep v) p).1 := by
  induction rts generalizing p with
  | nil => simp
  | cons r rts ih =>
    rw [List.foldl_cons]
    refine le_trans ?_ (ih _)
    unfold relStep
    split_ifs <;> simp

/-- The momentum-extras block never decreases the score. -/
theorem momentumExtras_score_le (topics : List Topic) (s : ℤ) (fb : List String) :
    s ≤ (momentumExtras topics s fb).1 := by
  unfold momentumExtras
  by_cases h : topics ≠ []
  · rw [if_pos h]
    cases hf : topics.find? (fun t => 2 ≤ t.correlations.length) <;>
      simp only [hf] <;> split_ifs <;> simp <;> omega
  · rw [if_neg h]

/-- The timeliness block never decreases the score. -/
theorem uploadBonus_score_le (v : VideoData) (s : ℤ) (fb : List String) :
    s ≤ (uploadBonus v s fb).1 := by
  unfold uploadBonus
  split_ifs <;> simp

/-- C2 (amended): the aggregator's alignment score is capped above at
100 but is not clamped below at 0: for every input it lies in
[−10, 100], and the −10 floor is attained (trending topics present with
zero keyword matches). -/
theorem alignment_score_bounds (v : VideoData) (ts : List Topic) (rel : List RelatedTag) :
    -10 ≤ (calculate_trend_score v ts rel).1 ∧ (calculate_trend_score v ts rel).1 ≤ 100 := by
  unfold calculate_trend_score
  by_cases hemp : ts = [] ∧ rel = []
  · rw [if_pos hemp]
    constructor <;> norm_num
  · rw [if_neg hemp]
    have h0 : 0 ≤ (ts.foldl (matchStep v) ⟨0, [], 0, 0, 0, 0⟩).score :=
      foldl_matchStep_score_nonneg v ts _ (by simp)
    have h1 := matchesSummary_score_lb (ts.foldl (matchStep v) ⟨0, [], 0, 0, 0, 0⟩)
    have h2 := foldl_relStep_fst_le v (rel.take 10)
      ((matchesSummary (ts.foldl (matchStep v) ⟨0, [], 0, 0, 0, 0⟩)).1, 0)
    have h3 := momentumExtras_score_le ts
      ((rel.take 10).foldl (relStep v)
        ((matchesSummary (ts.foldl (matchStep v) ⟨0, [], 0, 0, 0, 0⟩)).1, 0)).1
      (relatedSummary
        ((rel.take 10).foldl (relStep v)
          ((matchesSummary (ts.foldl (matchStep v) ⟨0, [], 0, 0, 0, 0⟩)).1, 0)).2
        (matchesSummary (ts.foldl (matchStep v) ⟨0, [], 0, 0, 0, 0⟩)).2)
    have h4 := uploadBonus_score_le v
      (momentumExtras ts
        ((rel.take 10).foldl (relStep v)
          ((matchesSummary (ts.foldl (matchStep v) ⟨0, [], 0, 0, 0, 0⟩)).1, 0)).1
        (relatedSummary
          ((rel.take 10).foldl (relStep v)
            ((matchesSummary (ts.foldl (matchStep v) ⟨0, [], 0, 0, 0, 0⟩)).1, 0)).2
          (matchesSummary (ts.foldl (matchStep v) ⟨0, [], 0, 0, 0, 0⟩)).2)).1
      (momentumExtras ts
        ((rel.take 10).foldl (relStep v)
          ((matchesSummary (ts.foldl (matchStep v) ⟨0, [], 0, 0, 0, 0⟩)).1, 0)).1
        (relatedSummary
          ((rel.take 10).foldl (relStep v)
            ((matchesSummary (ts.foldl (matchStep v) ⟨0, [], 0, 0, 0, 0⟩)).1, 0)).2
          (matchesSummary (ts.foldl (matchStep v) ⟨0, [], 0, 0, 0, 0⟩)).2)).2
    refine ⟨le_min (by norm_num) (by omega), min_le_left _ _⟩

/-- C2 counterexample to the claim as stated: with a trending topic
present but no keyword match, the returned score is −10, outside
[0, 100] — the source caps at 100 but never clamps below. -/
theorem alignment_score_negative_cex :
    (calculate_trend_score ⟨"hello", "", [], ""⟩
        [⟨"zzz", 0, 0, "", "", "", 0, false, [], 0, []⟩] []).1 = -10 ∧
      ¬(0 : ℤ) ≤ -10 := by
  refine ⟨?_, by decide⟩
  simp [calculate_trend_score, matchStep, matchesSummary, relatedSummary, momentumExtras,
    uploadBonus, strategyFeedback, topicMatches, relMatches]
  decide

/-- Witness for C2 at a concrete input. -/
theorem alignment_score_bounds_witness :
    -10 ≤ (calculate_trend_score ⟨"hello", "", [], ""⟩
        [⟨"zzz", 0, 0, "", "", "", 0, false, [], 0, []⟩] []).1 ∧
      (calculate_trend_score ⟨"hello", "", [], ""⟩
        [⟨"zzz", 0, 0, "", "", "", 0, false, [], 0, []⟩] []).1 ≤ 100 :=
  alignment_score_bounds _ _ _

/-- C9 (code bug): `analyze_trends` never touches the `trend_history`
deque created in `__init__`, so the history after any number of
analysis calls starting from the empty initial history is still empty —
no entry is added per call. -/
theorem trend_history_never_written :
    (∀ h : List String, analyze_trends_historyEffect h = h) ∧
      ∀ n : ℕ, analyze_trends_historyEffect^[n] [] = [] := by
  constructor
  · intro h; rfl
  · intro n
    induction n with
    | zero => rfl
    | succ k ih => rw [Function.iterate_succ_apply, analyze_trends_historyEffect, ih]

/-- Elements of an arithmetic series with nonnegative start and step are
nonnegative. -/
theorem arithSeries_mem_nonneg (a d : ℚ) (n : ℕ) (ha : 0 ≤ a) (hd : 0 ≤ d) :
    ∀ x ∈ arithSeries a d n, 0 ≤ x := by
  intro x hx
  simp only [arithSeries, List.mem_map, List.mem_range] at hx
  obtain ⟨i, -, rfl⟩ := hx
  positivity

/-- Length of the arithmetic series. -/
theorem arithSeries_length (a d : ℚ) (n : ℕ) : (arithSeries a d n).length = n := by
  simp [arithSeries]

/-- First element of a nonempty arithmetic series. -/
theorem arithSeries_headD (a d : ℚ) (n : ℕ) (hn : 0 < n) : headD (arithSeries a d n) = a := by
  obtain ⟨m, rfl⟩ := Nat.exists_eq_succ_of_ne_zero (Nat.pos_iff_ne_zero.mp hn)
  simp [arithSeries, headD, List.range_succ_eq_map]

/-- Last element of a nonempty arithmetic series. -/
theorem arithSeries_lastD (a d : ℚ) (n : ℕ) (hn : 0 < n) :
    lastD (arithSeries a d n) = a + d * ((n : ℚ) - 1) := by
  obtain ⟨m, rfl⟩ := Nat.exists_eq_succ_of_ne_zero (Nat.pos_iff_ne_zero.mp hn)
  rw [arithSeries, List.range_succ, List.map_append]
  simp [lastD, List.getLast?_concat]

/-- The tail of the exponential smoothing preserves nonnegativity. -/
theorem smoothAux_nonneg (prev : ℚ) (xs : List ℚ) (hp : 0 ≤ prev)
    (hxs : ∀ x ∈ xs, 0 ≤ x) : ∀ y ∈ smoothAux prev xs, 0 ≤ y := by
  induction xs generalizing prev with
  | nil => simp [smoothAux]
  | cons x xs ih =>
    intro y hy
    have hx : 0 ≤ x := hxs x (by simp)
    have hs : 0 ≤ (3 / 10 : ℚ) * x + (7 / 10 : ℚ) * prev := by positivity
    simp only [smoothAux, List.mem_cons] at hy
    rcases hy with rfl | hy
    · exact hs
    · exact ih _ hs (fun z hz => hxs z (by simp [hz])) y hy

/-- The smoothed series of a nonnegative series is nonnegative. -/
theorem smoothed_nonneg (xs : List ℚ) (h : ∀ x ∈ xs, 0 ≤ x) :
    ∀ y ∈ smoothed xs, 0 ≤ y := by
  cases xs with
  | nil => simp [smoothed]
  | cons x xs =>
    intro y hy
    simp only [smoothed, List.mem_cons] at hy
    rcases hy with rfl | hy
    · exact h y (by simp)
    · exact smoothAux_nonneg x xs (h x (by simp)) (fun z hz => h z (by simp [hz])) y hy

/-- The last smoothed value of a nonnegative series is nonnegative. -/
theorem lastD_smoothed_nonneg (xs : List ℚ) (h : ∀ x ∈ xs, 0 ≤ x) :
    0 ≤ lastD (smoothed xs) := by
  unfold lastD
  cases hl : (smoothed xs).getLast? with
  | none => simp
  | some y =>
    simp only [Option.getD_some]
    exact smoothed_nonneg xs h y (List.mem_of_mem_getLast? (hl ▸ Option.mem_def.mpr rfl))

/-- One clamped forecast step: a strictly larger pre-clamp value gives a
clamped value that is strictly larger unless it sits at the 100 cap. -/
theorem clamp_step (u w : ℚ) (hu : 0 < u) (huw : u < w) :
    max 0 (min 100 u) ≤ max 0 (min 100 w) ∧
      (max 0 (min 100 u) < max 0 (min 100 w) ∨ max 0 (min 100 w) = 100) := by
  by_cases h100 : (100 : ℚ) ≤ w
  · have hw : min 100 w = 100 := min_eq_left h100
    rw [hw]
    refine ⟨?_, Or.inr (by norm_num)⟩
    have h1 : min 100 u ≤ 100 := min_le_left _ _
    calc max 0 (min 100 u) ≤ max 0 100 := max_le_max le_rfl h1
    _ = 100 := by norm_num
    _ ≤ max 0 100 := le_max_right _ _
    _ = max 0 100 := rfl
  · push_neg at h100
    have hw0 : 0 < w := lt_trans hu huw
    have hminw : min 100 w = w := min_eq_right h100.le
    have hminu : min 100 u = u := min_eq_right (le_of_lt (lt_trans huw h100))
    have hmaxw : max 0 (min 100 w) = w := by rw [hminw]; exact max_eq_right hw0.le
    have hmaxu : max 0 (min 100 u) = u := by rw [hminu]; exact max_eq_right hu.le
    rw [hmaxw, hmaxu]
    exact ⟨huw.le, Or.inl huw⟩

/-- C8: on a strictly increasing arithmetic series of length ≥ 4 with
values in [0,100], the forecaster produces a sequence that keeps
increasing step over step (equality only at the 100 cap, which the
claim itself imposes), each value at most 100. -/
theorem forecast_increasing_arith (a d : ℚ) (n N : ℕ)
    (hd : 0 < d) (hn : 4 ≤ n) (ha : 0 ≤ a) (_hcap : a + d * ((n : ℚ) - 1) ≤ 100) :
    List.Pairwise (fun p q => p ≤ q ∧ (p < q ∨ q = 100))
        (forecast_trend (arithSeries a d n) N).1 ∧
      ∀ f ∈ (forecast_trend (arithSeries a d n) N).1, f ≤ 100 := by
  have hlen : (arithSeries a d n).length = n := arithSeries_length a d n
  have hn4 : ¬ (arithSeries a d n).length < 4 := by rw [hlen]; omega
  have hn2 : 2 ≤ (arithSeries a d n).length := by rw [hlen]; omega
  have hs0 : 0 ≤ lastD (smoothed (arithSeries a d n)) :=
    lastD_smoothed_nonneg _ (arithSeries_mem_nonneg a d n ha hd.le)
  have htr : 0 < (lastD (arithSeries a d n) - headD (arithSeries a d n)) /
      ((arithSeries a d n).length : ℚ) := by
    rw [arithSeries_lastD a d n (by omega), arithSeries_headD a d n (by omega), hlen]
    have h1 : a + d * ((n : ℚ) - 1) - a = d * ((n : ℚ) - 1) := by ring
    rw [h1]
    have h4 : (4 : ℚ) ≤ (n : ℚ) := by exact_mod_cast hn
    have h2 : (0 : ℚ) < (n : ℚ) - 1 := by linarith
    have h3 : (0 : ℚ) < (n : ℚ) := by linarith
    positivity
  rw [forecast_trend, if_neg hn4, if_pos hn2]
  constructor
  · refine List.Pairwise.map _ ?_ (List.pairwise_lt_range N)
    intro i j hij
    have hcast : ((i : ℚ) + 1) < ((j : ℚ) + 1) := by
      have h : (i : ℚ) < (j : ℚ) := by exact_mod_cast hij
      linarith
    have hstep : 0 < (lastD (arithSeries a d n) - headD (arithSeries a d n)) /
        ((arithSeries a d n).length : ℚ) * ((i : ℚ) + 1) := by
      apply mul_pos htr
      positivity
    have hu : 0 < lastD (smoothed (arithSeries a d n)) +
        (lastD (arithSeries a d n) - headD (arithSeries a d n)) /
          ((arithSeries a d n).length : ℚ) * ((i : ℚ) + 1) := by linarith
    have huw : lastD (smoothed (arithSeries a d n)) +
        (lastD (arithSeries a d n) - headD (arithSeries a d n)) /
          ((arithSeries a d n).length : ℚ) * ((i : ℚ) + 1) <
        lastD (smoothed (arithSeries a d n)) +
        (lastD (arithSeries a d n) - headD (arithSeries a d n)) /
          ((arithSeries a d n).length : ℚ) * ((j : ℚ) + 1) := by
      have h := mul_lt_mul_of_pos_left hcast htr
      linarith
    exact clamp_step _ _ hu huw
  · intro f hf
    simp only [List.mem_map, List.mem_range] at hf
    obtain ⟨i, -, rfl⟩ := hf
    exact max_le (by norm_num) (min_le_left _ _)

/-- Witness for C8 at the spec example [10,20,30,40] with horizon 3. -/
theorem forecast_increasing_arith_witness :
    List.Pairwise (fun p q => p ≤ q ∧ (p < q ∨ q = 100))
        (forecast_trend (arithSeries 10 10 4) 3).1 ∧
      ∀ f ∈ (forecast_trend (arithSeries 10 10 4) 3).1, f ≤ 100 :=
  forecast_increasing_arith 10 10 4 3 (by norm_num) (by norm_num) (by norm_num) (by norm_num)

/-- The mean of a nonnegative series is nonnegative. -/
theorem meanQ_nonneg (xs : List ℚ) (h : ∀ x ∈ xs, 0 ≤ x) : 0 ≤ meanQ xs := by
  unfold meanQ
  exact div_nonneg (List.sum_nonneg h) (Nat.cast_nonneg _)

/-- The population variance is nonnegative. -/
theorem varQ_nonneg (xs : List ℚ) : 0 ≤ varQ xs := by
  unfold varQ
  refine div_nonneg (List.sum_nonneg ?_) (Nat.cast_nonneg _)
  intro y hy
  simp only [List.mem_map] at hy
  obtain ⟨i, -, rfl⟩ := hy
  positivity

/-- The growth factor of the momentum scorer is capped at 100. -/
theorem growthScoreQ_le (xs : List ℚ) : growthScoreQ xs ≤ 100 := by
  unfold growthScoreQ
  exact min_le_left _ _

/-- The level factor of the momentum scorer is capped at 100. -/
theorem levelScoreQ_le (xs : List ℚ) : levelScoreQ xs ≤ 100 := min_le_left _ _

/-- Bounds for the velocity classification ladder at any recent
velocity. -/
theorem velocity_branch_bounds (r : ℚ) :
    0 ≤ (if 5 < r then ((min 100 (50 + |r| * 2) : ℚ), ("rapidly_rising" : String))
        else if 1 < r then (60 + |r| * 3, "rising")
        else if r < -5 then (max 0 (50 - |r| * 2), "rapidly_falling")
        else if r < -1 then (40 - |r| * 3, "falling")
        else (50, "stable")).1 ∧
      (if 5 < r then ((min 100 (50 + |r| * 2) : ℚ), ("rapidly_rising" : String))
        else if 1 < r then (60 + |r| * 3, "rising")
        else if r < -5 then (max 0 (50 - |r| * 2), "rapidly_falling")
        else if r < -1 then (40 - |r| * 3, "falling")
        else (50, "stable")).1 ≤ 100 := by
  split_ifs with h1 h2 h3 h4
  · exact ⟨le_min (by norm_num) (by positivity), min_le_left _ _⟩
  · push_neg at h1
    have habs : |r| = r := abs_of_pos (by linarith)
    constructor
    · show (0 : ℚ) ≤ 60 + |r| * 3
      rw [habs]; linarith
    · show (60 : ℚ) + |r| * 3 ≤ 100
      rw [habs]; linarith
  · refine ⟨le_max_left _ _, ?_⟩
    show (max 0 (50 - |r| * 2) : ℚ) ≤ 100
    have := abs_nonneg r
    refine max_le (by norm_num) (by linarith)
  · push_neg at h3
    have habs : |r| = -r := abs_of_neg (by linarith)
    constructor
    · show (0 : ℚ) ≤ 40 - |r| * 3
      rw [habs]; linarith
    · show (40 : ℚ) - |r| * 3 ≤ 100
      rw [habs]; linarith
  · norm_num

/-- The velocity score always lies in [0, 100]. -/
theorem velocity_score_bounds (xs : List ℚ) :
    0 ≤ (calculate_trend_velocity xs).1 ∧ (calculate_trend_velocity xs).1 ≤ 100 := by
  unfold calculate_trend_velocity
  by_cases h1 : xs.length < 2
  · rw [if_pos h1]
    norm_num
  · rw [if_neg h1]
    exact velocity_branch_bounds _

/-- C10: the momentum scorer's range is asymmetric — for every series of
length ≥ 3 with values in [0,100] the momentum is at most 100 (each
weighted factor is capped at 100 and the weights sum to 1), but it is
not bounded below by 0: on `negSeries` (values in [0,100], collapsing
from a positive early average to a final 0) the momentum is strictly
negative with description strong_downward. -/
theorem momentum_bounds_asymmetric :
    (∀ (xs : List ℚ) (mval : ℝ) (dsc : String), 3 ≤ xs.length →
        (∀ x ∈ xs, 0 ≤ x ∧ x ≤ 100) →
        calculate_trend_momentum xs (mval, dsc) → mval ≤ 100) ∧
      ∀ (mval : ℝ) (dsc : String), calculate_trend_momentum negSeries (mval, dsc) →
        mval < 0 ∧ dsc = "strong_downward" := by
  constructor
  · intro xs mval dsc hlen hbnd hm
    unfold calculate_trend_momentum at hm
    rw [if_neg (by omega)] at hm
    obtain ⟨m, hmeq, hout, -⟩ := hm
    simp only at hout
    subst hout
    have hg : (growthScoreQ xs : ℝ) ≤ 100 := by exact_mod_cast growthScoreQ_le xs
    have hv : ((calculate_trend_velocity xs).1 : ℝ) ≤ 100 := by
      exact_mod_cast (velocity_score_bounds xs).2
    have hl : (levelScoreQ xs : ℝ) ≤ 100 := by exact_mod_cast levelScoreQ_le xs
    have hmean : (0 : ℝ) ≤ (meanQ xs : ℝ) := by
      exact_mod_cast meanQ_nonneg xs (fun x hx => (hbnd x hx).1)
    have hsq : (0 : ℝ) ≤ Real.sqrt (varQ xs) := Real.sqrt_nonneg _
    have hc : max 0 (100 - Real.sqrt (varQ xs) / ((meanQ xs : ℝ) + 1) * 20) ≤ 100 := by
      refine max_le (by norm_num) ?_
      have hpos : (0 : ℝ) < (meanQ xs : ℝ) + 1 := by linarith
      have : 0 ≤ Real.sqrt (varQ xs) / ((meanQ xs : ℝ) + 1) * 20 := by positivity
      linarith
    rw [hmeq]
    linarith
  · intro mval dsc hm
    unfold calculate_trend_momentum at hm
    rw [if_neg (by norm_num [negSeries])] at hm
    obtain ⟨m, hmeq, hout, hdesc⟩ := hm
    simp only at hout hdesc
    subst hout
    have hg : growthScoreQ negSeries = -50 := by
      norm_num [growthScoreQ, lastN, meanQ, negSeries]
    have hv : (calculate_trend_velocity negSeries).1 = 50 / 3 := by
      norm_num [calculate_trend_velocity, npGradient, negSeries, lastN, meanQ, getQ,
        List.range_succ, abs_of_nonneg]
    have hl : levelScoreQ negSeries = 0 := by
      norm_num [levelScoreQ, lastD, negSeries]
    have hmean : meanQ negSeries = 101 / 20 := by norm_num [meanQ, negSeries]
    have hvar : varQ negSeries = 189819 / 400 := by
      norm_num [varQ, getQ, meanQ, negSeries, List.range_succ]
    rw [hg, hv, hl, hmean, hvar] at hmeq
    have hsqrt : (121 / 8 : ℝ) < Real.sqrt ((189819 / 400 : ℚ) : ℝ) := by
      rw [Real.lt_sqrt (by norm_num)]
      norm_num
    have hcval : max 0 (100 - Real.sqrt ((189819 / 400 : ℚ) : ℝ) /
        (((101 / 20 : ℚ) : ℝ) + 1) * 20) < 50 := by
      refine max_lt (by norm_num) ?_
      have h1 : ((101 / 20 : ℚ) : ℝ) + 1 = 121 / 20 := by push_cast; norm_num
      rw [h1]
      have h2 : (50 : ℝ) < Real.sqrt ((189819 / 400 : ℚ) : ℝ) / (121 / 20) * 20 := by
        rw [div_mul_eq_mul_div, lt_div_iff₀ (by norm_num)]
        nlinarith [hsqrt]
      linarith
    have hmneg : mval < 0 := by
      rw [hmeq]
      push_cast
      nlinarith [hcval, le_max_left (0 : ℝ)
        (100 - Real.sqrt ((189819 / 400 : ℚ) : ℝ) / (((101 / 20 : ℚ) : ℝ) + 1) * 20)]
    refine ⟨hmneg, ?_⟩
    rcases hdesc with ⟨h75, -⟩ | ⟨-, h60, -⟩ | ⟨-, -, h40, -⟩ | ⟨-, -, -, h25, -⟩ |
      ⟨-, -, -, -, hd⟩
    · linarith
    · linarith
    · linarith
    · linarith
    · exact hd

/-- Witness for C10: the momentum bound applied at the constant-zero
3-point series, whose momentum is exactly 50. -/
theorem momentum_bounds_asymmetric_witness : (50 : ℝ) ≤ 100 :=
  momentum_bounds_asymmetric.1 [0, 0, 0] 50 "neutral" (by norm_num)
    (by intro x hx; fin_cases hx <;> norm_num)
    (by
      unfold calculate_trend_momentum
      rw [if_neg (by norm_num)]
      refine ⟨50, ?_, rfl, ?_⟩
      · have hg : growthScoreQ [0, 0, 0] = 50 := by norm_num [growthScoreQ, lastN, meanQ]
        have hv : (calculate_trend_velocity [0, 0, 0]).1 = 50 := by
          norm_num [calculate_trend_velocity, npGradient, getQ, lastN, meanQ, List.range_succ]
        have hvar : varQ [0, 0, 0] = 0 := by norm_num [varQ, getQ, meanQ, List.range_succ]
        have hmean : meanQ [0, 0, 0] = 0 := by norm_num [meanQ]
        have hl : levelScoreQ [0, 0, 0] = 0 := by norm_num [levelScoreQ, lastD]
        rw [hg, hv, hvar, hmean, hl]
        push_cast
        rw [Real.sqrt_zero]
        norm_num
      · unfold momentumDescRel
        norm_num)

/-- Growth factor of the scenario series. -/
theorem s7_growth : growthScoreQ series7 = 100 := by
  norm_num [growthScoreQ, lastN, meanQ, series7]

/-- Velocity of the scenario series: rapidly rising (recent velocity
26/3 > 5), score min(100, 50 + 2·26/3) = 202/3. -/
theorem s7_velocity : calculate_trend_velocity series7 = (202 / 3, "rapidly_rising") := by
  norm_num [calculate_trend_velocity, npGradient, series7, lastN, meanQ, getQ, List.range_succ,
    abs_of_nonneg]

/-- Acceleration of the scenario series. -/
theorem s7_acceleration : calculate_trend_acceleration series7 = (65, "slowly_accelerating") := by
  norm_num [calculate_trend_acceleration, npGradient, series7, lastN, meanQ, getQ,
    List.range_succ]

/-- OLS slope of the scenario series. -/
theorem s7_slope : slopeQ series7 = 41 / 7 := by
  norm_num [slopeQ, getQ, meanQ, series7, List.range_succ]

/-- Mean of the scenario series. -/
theorem s7_mean : meanQ series7 = 165 / 7 := by norm_num [meanQ, series7]

/-- Variance of the scenario series. -/
theorem s7_var : varQ series7 = 7096 / 49 := by
  norm_num [varQ, getQ, meanQ, series7, List.range_succ]

/-- Level factor of the scenario series. -/
theorem s7_level : levelScoreQ series7 = 45 := by norm_num [levelScoreQ, lastD, series7]

/-- No anomalies in the scenario series (all z-scores below 2). -/
theorem s7_anomalies : detect_anomalies series7 = [] := by
  norm_num [detect_anomalies, varQ, getQ, meanQ, series7, List.range_succ]

/-- Forecast of the scenario series (variance 7096/49 ∈ [100, 300) gives
confidence 60). -/
theorem s7_forecast : forecast_trend series7 3 =
    ([4360749 / 125000, 4985749 / 125000, 5610749 / 125000], 60) := by
  norm_num [forecast_trend, smoothed, smoothAux, lastD, headD, varQ, getQ, meanQ, series7,
    List.range_succ]

/-- Truncated average interest of the scenario series. -/
theorem s7_avgint : pyIntQ (meanQ series7) = 23 := by
  norm_num [pyIntQ, meanQ, series7]

/-- Lifecycle of the scenario series: the mean 165/7 ≥ 20 rules out the
emerging branch, and the slope 41/7 > 2 with recent 36 > 1.5·(37/3)
takes the first growing branch — phase growing with score 85. -/
theorem s7_lifecycle : (detect_trend_lifecycle series7 "python tutorial").1 = "growing" ∧
    (detect_trend_lifecycle series7 "python tutorial").2.1 = 85 := by
  have hlen : ¬ series7.length < 5 := by norm_num [series7]
  have h1 : ¬ (meanQ series7 < 20 ∧ 1 < slopeQ series7) := by
    norm_num [meanQ, series7]
  have h2 : 2 < slopeQ series7 ∧ meanQ (series7.take 3) * (3 / 2) < meanQ (lastN 3 series7) := by
    constructor
    · norm_num [slopeQ, getQ, meanQ, series7, List.range_succ]
    · norm_num [meanQ, series7, lastN]
  simp only [detect_trend_lifecycle]
  rw [if_neg hlen, if_neg h1, if_pos h2]
  exact ⟨rfl, rfl⟩

/-- The consistency factor of the momentum scorer on the scenario
series lies in [89, 94): the standard deviation √(7096/49) is between
12 and 13. -/
theorem s7_consistency_bounds :
    89 ≤ max 0 (100 - Real.sqrt ((varQ series7 : ℝ)) / ((meanQ series7 : ℝ) + 1) * 20) ∧
      max 0 (100 - Real.sqrt ((varQ series7 : ℝ)) / ((meanQ series7 : ℝ) + 1) * 20) < 94 := by
  have hvarR : ((varQ series7 : ℚ) : ℝ) = 7096 / 49 := by
    rw [s7_var]; norm_num
  have hmeanR : ((meanQ series7 : ℚ) : ℝ) = 165 / 7 := by
    rw [s7_mean]; norm_num
  rw [hvarR, hmeanR]
  have h12 : (12 : ℝ) < Real.sqrt (7096 / 49) := by
    rw [Real.lt_sqrt (by norm_num)]
    norm_num
  have h13 : Real.sqrt (7096 / 49) < 13 := by
    rw [Real.sqrt_lt' (by norm_num)]
    norm_num
  have key : Real.sqrt (7096 / 49) / ((165 / 7 : ℝ) + 1) * 20 =
      Real.sqrt (7096 / 49) * (35 / 43) := by ring
  rw [key]
  constructor
  · apply le_max_of_le_right
    linarith
  · apply max_lt (by norm_num)
    linarith

/-- Bounds on the momentum value of the scenario series: it lies in
[77, 78) (numerically ≈ 77.2). -/
theorem s7_expr_bounds :
    77 ≤ (growthScoreQ series7 : ℝ) * (3 / 10) +
        ((calculate_trend_velocity series7).1 : ℝ) * (3 / 10) +
        max 0 (100 - Real.sqrt ((varQ series7 : ℝ)) / ((meanQ series7 : ℝ) + 1) * 20) * (1 / 5) +
        (levelScoreQ series7 : ℝ) * (1 / 5) ∧
      (growthScoreQ series7 : ℝ) * (3 / 10) +
        ((calculate_trend_velocity series7).1 : ℝ) * (3 / 10) +
        max 0 (100 - Real.sqrt ((varQ series7 : ℝ)) / ((meanQ series7 : ℝ) + 1) * 20) * (1 / 5) +
        (levelScoreQ series7 : ℝ) * (1 / 5) < 78 := by
  have hgR : ((growthScoreQ series7 : ℚ) : ℝ) = 100 := by rw [s7_growth]; norm_num
  have hvR : (((calculate_trend_velocity series7).1 : ℚ) : ℝ) = 202 / 3 := by
    rw [s7_velocity]; norm_num
  have hlR : ((levelScoreQ series7 : ℚ) : ℝ) = 45 := by rw [s7_level]; norm_num
  obtain ⟨hc1, hc2⟩ := s7_consistency_bounds
  rw [hgR, hvR, hlR]
  constructor <;> linarith

/-- The momentum scorer on the scenario series yields the explicit
smo(othed) expression with description strong_upward. -/
theorem s7_momentum_exists :
    calculate_trend_momentum series7
      ((growthScoreQ series7 : ℝ) * (3 / 10) +
        ((calculate_trend_velocity series7).1 : ℝ) * (3 / 10) +
        max 0 (100 - Real.sqrt ((varQ series7 : ℝ)) / ((meanQ series7 : ℝ) + 1) * 20) * (1 / 5) +
        (levelScoreQ series7 : ℝ) * (1 / 5), "strong_upward") := by
  unfold calculate_trend_momentum
  rw [if_neg (by norm_num [series7])]
  refine ⟨_, rfl, rfl, Or.inl ⟨?_, rfl⟩⟩
  linarith [s7_expr_bounds.1]

/-- Any momentum result of the scenario series has its value in
[77, 78) and description strong_upward. -/
theorem s7_momentum_val (mval : ℝ) (dsc : String)
    (hm : calculate_trend_momentum series7 (mval, dsc)) :
    (77 ≤ mval ∧ mval < 78) ∧ dsc = "strong_upward" := by
  unfold calculate_trend_momentum at hm
  rw [if_neg (by norm_num [series7])] at hm
  obtain ⟨m, hmeq, hout, hdesc⟩ := hm
  simp only at hout hdesc
  subst hout
  rw [hmeq] at hdesc ⊢
  obtain ⟨h1, h2⟩ := s7_expr_bounds
  refine ⟨⟨h1, h2⟩, ?_⟩
  rcases hdesc with ⟨-, hd⟩ | ⟨h75, -⟩ | ⟨h75, -⟩ | ⟨h75, -⟩ | ⟨h75, -⟩ <;>
    first
    | exact hd
    | (exact absurd (by linarith : (75 : ℝ) < _) h75)

/-- The truncation of the scenario momentum is 77. -/
theorem s7_pyIntRel_mom :
    pyIntRel ((growthScoreQ series7 : ℝ) * (3 / 10) +
      ((calculate_trend_velocity series7).1 : ℝ) * (3 / 10) +
      max 0 (100 - Real.sqrt ((varQ series7 : ℝ)) / ((meanQ series7 : ℝ) + 1) * 20) * (1 / 5) +
      (levelScoreQ series7 : ℝ) * (1 / 5)) 77 := by
  obtain ⟨h1, h2⟩ := s7_expr_bounds
  left
  refine ⟨by linarith, ?_⟩
  rw [eq_comm, Int.floor_eq_iff]
  constructor <;> push_cast <;> linarith

/-- The comprehensive score of the scenario series lies in [62, 63). -/
theorem s7_comp_bounds (mom : ℝ) (h77 : 77 ≤ mom) (h78 : mom < 78) :
    62 ≤ (meanQ series7 : ℝ) * (1 / 4) + ((calculate_trend_velocity series7).1 : ℝ) * (1 / 5) +
        ((detect_trend_lifecycle series7 "python tutorial").2.1 : ℝ) * (1 / 4) + mom * (1 / 5) +
        ((calculate_trend_acceleration series7).1 : ℝ) * (1 / 10) ∧
      (meanQ series7 : ℝ) * (1 / 4) + ((calculate_trend_velocity series7).1 : ℝ) * (1 / 5) +
        ((detect_trend_lifecycle series7 "python tutorial").2.1 : ℝ) * (1 / 4) + mom * (1 / 5) +
        ((calculate_trend_acceleration series7).1 : ℝ) * (1 / 10) < 63 := by
  have hmR : ((meanQ series7 : ℚ) : ℝ) = 165 / 7 := by rw [s7_mean]; norm_num
  have hvR : (((calculate_trend_velocity series7).1 : ℚ) : ℝ) = 202 / 3 := by
    rw [s7_velocity]; norm_num
  have hlcR : (((detect_trend_lifecycle series7 "python tutorial").2.1 : ℚ) : ℝ) = 85 := by
    rw [s7_lifecycle.2]; norm_num
  have haR : (((calculate_trend_acceleration series7).1 : ℚ) : ℝ) = 65 := by
    rw [s7_acceleration]; norm_num
  rw [hmR, hvR, hlcR, haR]
  constructor <;> linarith

/-- The truncated comprehensive score of the scenario series is 62. -/
theorem s7_pyIntRel_comp (mom : ℝ) (h77 : 77 ≤ mom) (h78 : mom < 78) :
    pyIntRel ((meanQ series7 : ℝ) * (1 / 4) + ((calculate_trend_velocity series7).1 : ℝ) * (1 / 5) +
      ((detect_trend_lifecycle series7 "python tutorial").2.1 : ℝ) * (1 / 4) + mom * (1 / 5) +
      ((calculate_trend_acceleration series7).1 : ℝ) * (1 / 10)) 62 := by
  obtain ⟨h1, h2⟩ := s7_comp_bounds mom h77 h78
  left
  refine ⟨by linarith, ?_⟩
  rw [eq_comm, Int.floor_eq_iff]
  constructor <;> push_cast <;> linarith

/-- The topic built for the scenario keyword/series is exactly
`topic7`. -/
theorem buildTopic_s7 : buildTopic "python tutorial" series7 topic7 := by
  refine ⟨_, "strong_upward", 77, 62, s7_momentum_exists, s7_pyIntRel_mom,
    s7_pyIntRel_comp _ s7_expr_bounds.1 s7_expr_bounds.2, ?_⟩
  rw [s7_velocity, s7_acceleration, s7_anomalies, s7_forecast, s7_lifecycle.1, s7_avgint]
  simp [topic7]

/-- The scenario topic record is unique. -/
theorem buildTopic_s7_unique (t : Topic) (h : buildTopic "python tutorial" series7 t) :
    t = topic7 := by
  obtain ⟨mom, dsc, mi, ci, hm, hpi, hpc, ht⟩ := h
  obtain ⟨⟨h77, h78⟩, -⟩ := s7_momentum_val mom dsc hm
  have hmi : mi = 77 := by
    rcases hpi with ⟨-, hfl⟩ | ⟨hneg, -⟩
    · rw [hfl, Int.floor_eq_iff]
      constructor <;> push_cast <;> linarith
    · linarith
  have hcb := s7_comp_bounds mom h77 h78
  have hci : ci = 62 := by
    rcases hpc with ⟨-, hfl⟩ | ⟨hneg, -⟩
    · rw [hfl, Int.floor_eq_iff]
      constructor <;> push_cast <;> linarith [hcb.1, hcb.2]
    · linarith [hcb.1]
  subst hmi hci
  rw [ht, s7_velocity, s7_acceleration, s7_anomalies, s7_forecast, s7_lifecycle.1, s7_avgint]
  simp [topic7]

/-- C4 counterexample to the claim as stated: on the scenario series
the velocity direction is "rapidly_rising", not "rising"; the
comprehensive score is 62, which does not exceed 65; and the growing
lifecycle comes from the slope>2 branch (score 85), not the slope>0.5
branch. -/
theorem e2e_python_tutorial_cex :
    buildTopic "python tutorial" series7 topic7 ∧
      topic7.velocity = "rapidly_rising" ∧ topic7.velocity ≠ "rising" ∧
      topic7.score = 62 ∧ ¬ (65 : ℤ) < topic7.score ∧
      (detect_trend_lifecycle series7 "python tutorial").2.1 = 85 :=
  ⟨buildTopic_s7, rfl, by decide, rfl, by decide, s7_lifecycle.2⟩

/-- C4 (amended): for keyword "python tutorial" with series
[10,12,15,20,28,35,45], the velocity is rapidly_rising, the lifecycle
is growing via the slope>2 ∧ recent>1.5·early branch (score 85, and the
claim's slope>0.5 ∧ recent>0.9·mean condition also holds), the
comprehensive score is 62 (>60 but not >65), and feeding the topic to
the content scorer with a matching title scores 57 against 15 for a
non-matching title — 42 points higher, at least the claimed 27. -/
theorem e2e_python_tutorial (t : Topic) (h : buildTopic "python tutorial" series7 t) :
    t.velocity = "rapidly_rising" ∧
      t.lifecycle = "growing" ∧
      2 < slopeQ series7 ∧ meanQ (series7.take 3) * (3 / 2) < meanQ (lastN 3 series7) ∧
      (1 / 2 : ℚ) < slopeQ series7 ∧ meanQ series7 * (9 / 10) < meanQ (lastN 3 series7) ∧
      t.score = 62 ∧ 60 < t.score ∧ ¬ 65 < t.score ∧
      (calculate_trend_score vMatch7 [t] []).1 = 57 ∧
      (calculate_trend_score vNoMatch7 [t] []).1 = 15 ∧
      (calculate_trend_score vMatch7 [t] []).1 -
          (calculate_trend_score vNoMatch7 [t] []).1 = 42 ∧
      (27 : ℤ) ≤ (calculate_trend_score vMatch7 [t] []).1 -
          (calculate_trend_score vNoMatch7 [t] []).1 := by
  rw [buildTopic_s7_unique t h]
  refine ⟨rfl, rfl, ?_, ?_, ?_, ?_, rfl, by decide, by decide, ?_, ?_, ?_, ?_⟩
  · norm_num [slopeQ, getQ, meanQ, series7, List.range_succ]
  · norm_num [meanQ, series7, lastN]
  · norm_num [slopeQ, getQ, meanQ, series7, List.range_succ]
  · norm_num [meanQ, series7, lastN]
  · simp [calculate_trend_score, matchStep, matchesSummary, relatedSummary, momentumExtras,
      uploadBonus, strategyFeedback, topicMatches, relMatches, topic7, vMatch7]
    decide
  · simp [calculate_trend_score, matchStep, matchesSummary, relatedSummary, momentumExtras,
      uploadBonus, strategyFeedback, topicMatches, relMatches, topic7, vNoMatch7]
    decide
  · have h1 : (calculate_trend_score vMatch7 [topic7] []).1 = 57 := by
      simp [calculate_trend_score, matchStep, matchesSummary, relatedSummary, momentumExtras,
        uploadBonus, strategyFeedback, topicMatches, relMatches, topic7, vMatch7]
      decide
    have h2 : (calculate_trend_score vNoMatch7 [topic7] []).1 = 15 := by
      simp [calculate_trend_score, matchStep, matchesSummary, relatedSummary, momentumExtras,
        uploadBonus, strategyFeedback, topicMatches, relMatches, topic7, vNoMatch7]
      decide
    rw [h1, h2]
    decide
  · have h1 : (calculate_trend_score vMatch7 [topic7] []).1 = 57 := by
      simp [calculate_trend_score, matchStep, matchesSummary, relatedSummary, momentumExtras,
        uploadBonus, strategyFeedback, topicMatches, relMatches, topic7, vMatch7]
      decide
    have h2 : (calculate_trend_score vNoMatch7 [topic7] []).1 = 15 := by
      simp [calculate_trend_score, matchStep, matchesSummary, relatedSummary, momentumExtras,
        uploadBonus, strategyFeedback, topicMatches, relMatches, topic7, vNoMatch7]
      decide
    rw [h1, h2]
    decide

/-- Witness for C4 at the concrete scenario topic. -/
theorem e2e_python_tutorial_witness :
    topic7.velocity = "rapidly_rising" ∧
      topic7.lifecycle = "growing" ∧
      2 < slopeQ series7 ∧ meanQ (series7.take 3) * (3 / 2) < meanQ (lastN 3 series7) ∧
      (1 / 2 : ℚ) < slopeQ series7 ∧ meanQ series7 * (9 / 10) < meanQ (lastN 3 series7) ∧
      topic7.score = 62 ∧ 60 < topic7.score ∧ ¬ 65 < topic7.score ∧
      (calculate_trend_score vMatch7 [topic7] []).1 = 57 ∧
      (calculate_trend_score vNoMatch7 [topic7] []).1 = 15 ∧
      (calculate_trend_score vMatch7 [topic7] []).1 -
          (calculate_trend_score vNoMatch7 [topic7] []).1 = 42 ∧
      (27 : ℤ) ≤ (calculate_trend_score vMatch7 [topic7] []).1 -
          (calculate_trend_score vNoMatch7 [topic7] []).1 :=
  e2e_python_tutorial topic7 buildTopic_s7

/-- The covariance of a series with itself is its variance. -/
theorem covQ_self (xs : List ℚ) : covQ xs xs = varQ xs := by
  unfold covQ varQ
  congr 1
  simp only [pow_two]

/-- What a produced correlation record satisfies: the pair passed the
length guard, both truncated series have positive variance, the record
carries their keywords, `|r| > 0.5` holds as the exact rational test,
and strength/type are the source's threshold labels. -/
theorem corrOfPair_spec (p : (String × List ℚ) × (String × List ℚ)) (e : Corr)
    (h : corrOfPair p = some e) :
    3 ≤ min p.1.2.length p.2.2.length ∧
      0 < varQ (p.1.2.take (min p.1.2.length p.2.2.length)) ∧
      0 < varQ (p.2.2.take (min p.1.2.length p.2.2.length)) ∧
      e.keyword1 = p.1.1 ∧ e.keyword2 = p.2.1 ∧
      e.cov = covQ (p.1.2.take (min p.1.2.length p.2.2.length))
        (p.2.2.take (min p.1.2.length p.2.2.length)) ∧
      e.varProd = varQ (p.1.2.take (min p.1.2.length p.2.2.length)) *
        varQ (p.2.2.take (min p.1.2.length p.2.2.length)) ∧
      e.varProd < 4 * e.cov ^ 2 ∧
      (e.strength = "strong" ↔ 49 * e.varProd < 100 * e.cov ^ 2) ∧
      (e.strength = "strong" ∨ e.strength = "moderate") ∧
      (e.ctype = "positive" ↔ 0 < e.cov) ∧
      (e.ctype = "positive" ∨ e.ctype = "negative") := by
  simp only [corrOfPair] at h
  by_cases h1 : min p.1.2.length p.2.2.length < 3
  · rw [if_pos h1] at h
    exact Option.noConfusion h
  rw [if_neg h1] at h
  by_cases h2 : 0 < varQ (p.1.2.take (min p.1.2.length p.2.2.length)) ∧
      0 < varQ (p.2.2.take (min p.1.2.length p.2.2.length))
  swap
  · rw [if_neg h2] at h
    exact Option.noConfusion h
  rw [if_pos h2] at h
  by_cases h3 : varQ (p.1.2.take (min p.1.2.length p.2.2.length)) *
      varQ (p.2.2.take (min p.1.2.length p.2.2.length)) <
      4 * covQ (p.1.2.take (min p.1.2.length p.2.2.length))
        (p.2.2.take (min p.1.2.length p.2.2.length)) ^ 2
  swap
  · rw [if_neg h3] at h
    exact Option.noConfusion h
  rw [if_pos h3] at h
  obtain rfl := Option.some.inj h
  refine ⟨by omega, h2.1, h2.2, rfl, rfl, rfl, rfl, h3, ?_, ?_, ?_, ?_⟩
  · by_cases hlt : 49 * (varQ (p.1.2.take (min p.1.2.length p.2.2.length)) *
        varQ (p.2.2.take (min p.1.2.length p.2.2.length))) <
        100 * covQ (p.1.2.take (min p.1.2.length p.2.2.length))
          (p.2.2.take (min p.1.2.length p.2.2.length)) ^ 2
    · exact ⟨fun _ => hlt, fun _ => if_pos hlt⟩
    · exact ⟨fun hs => absurd ((if_neg hlt).symm.trans hs) (by decide),
        fun h49 => absurd h49 hlt⟩
  · by_cases hlt : 49 * (varQ (p.1.2.take (min p.1.2.length p.2.2.length)) *
        varQ (p.2.2.take (min p.1.2.length p.2.2.length))) <
        100 * covQ (p.1.2.take (min p.1.2.length p.2.2.length))
          (p.2.2.take (min p.1.2.length p.2.2.length)) ^ 2
    · exact Or.inl (if_pos hlt)
    · exact Or.inr (if_neg hlt)
  · by_cases hlt : 0 < covQ (p.1.2.take (min p.1.2.length p.2.2.length))
        (p.2.2.take (min p.1.2.length p.2.2.length))
    · exact ⟨fun _ => hlt, fun _ => if_pos hlt⟩
    · exact ⟨fun hs => absurd ((if_neg hlt).symm.trans hs) (by decide),
        fun hc => absurd hc hlt⟩
  · by_cases hlt : 0 < covQ (p.1.2.take (min p.1.2.length p.2.2.length))
        (p.2.2.take (min p.1.2.length p.2.2.length))
    · exact Or.inl (if_pos hlt)
    · exact Or.inr (if_neg hlt)

/-- The magnitude of the Pearson coefficient in exact form:
`|cov/√varProd| = √(cov²/varProd)`. -/
theorem abs_corr_eq_sqrt (c v : ℚ) (hv : (0 : ℚ) < v) :
    |(c : ℝ) / Real.sqrt ((v : ℝ))| = Real.sqrt (((c ^ 2 / v : ℚ) : ℝ)) := by
  have hvR : (0 : ℝ) < (v : ℝ) := by exact_mod_cast hv
  have hsp : (0 : ℝ) < Real.sqrt (v : ℝ) := Real.sqrt_pos.mpr hvR
  push_cast
  rw [Real.sqrt_div (by positivity) _, Real.sqrt_sq_eq_abs, abs_div,
    abs_of_pos hsp]

/-- `q < |r|` is the exact rational test `q²·varProd < cov²` (for
`q ≥ 0` and positive `varProd`). -/
theorem abs_corr_gt_iff (c v q : ℚ) (hv : (0 : ℚ) < v) (hq : (0 : ℚ) ≤ q) :
    ((q : ℝ) < |(c : ℝ) / Real.sqrt ((v : ℝ))| ↔ q ^ 2 * v < c ^ 2) := by
  rw [abs_corr_eq_sqrt c v hv, Real.lt_sqrt (by exact_mod_cast hq)]
  rw [show (((c ^ 2 / v : ℚ)) : ℝ) = ((c : ℝ) ^ 2 / (v : ℝ)) by push_cast; ring]
  rw [lt_div_iff₀ (by exact_mod_cast hv)]
  constructor
  · intro h
    have : ((q ^ 2 * v : ℚ) : ℝ) < ((c ^ 2 : ℚ) : ℝ) := by push_cast; linarith
    exact_mod_cast this
  · intro h
    have : ((q ^ 2 * v : ℚ) : ℝ) < ((c ^ 2 : ℚ) : ℝ) := by exact_mod_cast h
    push_cast at this
    linarith

/-- The sign of the Pearson coefficient is the sign of the covariance. -/
theorem corr_pos_iff (c v : ℚ) (hv : (0 : ℚ) < v) :
    (0 < (c : ℝ) / Real.sqrt ((v : ℝ)) ↔ 0 < c) := by
  have hvR : (0 : ℝ) < (v : ℝ) := by exact_mod_cast hv
  have hsp : (0 : ℝ) < Real.sqrt (v : ℝ) := Real.sqrt_pos.mpr hvR
  rw [div_pos_iff]
  constructor
  · rintro (⟨hc, -⟩ | ⟨-, hneg⟩)
    · exact_mod_cast hc
    · exact absurd hsp (by linarith)
  · intro hc
    exact Or.inl ⟨by exact_mod_cast hc, hsp⟩

/-- Members of the pair enumeration come from the list. -/
theorem pairsList_mem {α : Type} (l : List α) (p : α × α) (h : p ∈ pairsList l) :
    p.1 ∈ l ∧ p.2 ∈ l := by
  induction l with
  | nil => simp [pairsList] at h
  | cons x xs ih =>
    simp only [pairsList, List.mem_append, List.mem_map] at h
    rcases h with ⟨y, hy, rfl⟩ | h
    · exact ⟨by simp, by simp [hy]⟩
    · obtain ⟨ha, hb⟩ := ih h
      exact ⟨by simp [ha], by simp [hb]⟩

/-- With distinct keys, the keyword pairs of the i<j enumeration are
pairwise distinct. -/
theorem pairsList_keys_nodup (m : List (String × List ℚ))
    (h : (m.map Prod.fst).Nodup) :
    ((pairsList m).map fun p => (p.1.1, p.2.1)).Nodup := by
  induction m with
  | nil => simp [pairsList]
  | cons x xs ih =>
    simp only [List.map_cons, List.nodup_cons] at h
    obtain ⟨hx, hxs⟩ := h
    simp only [pairsList, List.map_append, List.map_map]
    rw [List.nodup_append]
    refine ⟨?_, ih hxs, ?_⟩
    · have heq : xs.map ((fun p : (String × List ℚ) × (String × List ℚ) =>
          (p.1.1, p.2.1)) ∘ fun y => (x, y)) =
          (xs.map Prod.fst).map fun k => (x.1, k) := by
        rw [List.map_map]
        rfl
      rw [heq]
      exact hxs.map fun a b hab => (Prod.ext_iff.mp hab).2
    · intro a ha hb
      simp only [List.mem_map, Function.comp] at ha hb
      obtain ⟨y, -, rfl⟩ := ha
      obtain ⟨q, hq, hqe⟩ := hb
      have hq1 : q.1 ∈ xs := (pairsList_mem xs q hq).1
      have : q.1.1 = x.1 := (Prod.ext_iff.mp hqe).1
      exact hx (this ▸ List.mem_map_of_mem Prod.fst hq1)

/-- The keyword projection of the filtered correlations is a sublist of
the keyword projection of the pair enumeration. -/
theorem filterMap_kw_sublist (l : List ((String × List ℚ) × (String × List ℚ))) :
    ((l.filterMap corrOfPair).map fun e => (e.keyword1, e.keyword2)).Sublist
      (l.map fun p => (p.1.1, p.2.1)) := by
  induction l with
  | nil => simp
  | cons p l ih =>
    cases hp : corrOfPair p with
    | none =>
      simp only [List.filterMap_cons, hp, List.map_cons]
      exact ih.cons _
    | some e =>
      obtain ⟨-, -, -, hk1, hk2, -⟩ := corrOfPair_spec p e hp
      simp only [List.filterMap_cons, hp, List.map_cons, hk1, hk2]
      exact ih.cons₂ _

/-- Two identical series with distinct keys produce exactly one
correlation record, strong and positive with coefficient exactly 1. -/
theorem cross_identical (k1 k2 : String) (xs : List ℚ) (_hne : k1 ≠ k2)
    (hlen : 3 ≤ xs.length) (hvar : varQ xs ≠ 0) :
    ∃ e, cross_correlate_trends [(k1, xs), (k2, xs)] = [e] ∧ e.keyword1 = k1 ∧
      e.keyword2 = k2 ∧ (e.cov : ℝ) / Real.sqrt ((e.varProd : ℝ)) = 1 ∧
      e.strength = "strong" ∧ e.ctype = "positive" := by
  have hv : 0 < varQ xs := lt_of_le_of_ne (varQ_nonneg xs) (Ne.symm hvar)
  refine ⟨⟨k1, k2, varQ xs, varQ xs * varQ xs, "strong", "positive"⟩, ?_, rfl, rfl, ?_, rfl, rfl⟩
  · rw [cross_correlate_trends]
    rw [if_neg (by norm_num)]
    have hp : pairsList [(k1, xs), (k2, xs)] = [((k1, xs), (k2, xs))] := by
      simp [pairsList]
    rw [hp]
    have hc : corrOfPair ((k1, xs), (k2, xs)) =
        some ⟨k1, k2, varQ xs, varQ xs * varQ xs, "strong", "positive"⟩ := by
      simp only [corrOfPair, min_self, List.take_length, covQ_self]
      rw [if_neg (by omega), if_pos ⟨hv, hv⟩,
        if_pos (show varQ xs * varQ xs < 4 * varQ xs ^ 2 by nlinarith),
        if_pos (show (49 : ℚ) * (varQ xs * varQ xs) < 100 * varQ xs ^ 2 by nlinarith),
        if_pos hv]
    simp [hc]
  · have hvR : (0 : ℝ) < ((varQ xs : ℚ) : ℝ) := by exact_mod_cast hv
    push_cast
    rw [Real.sqrt_mul_self (le_of_lt hvR)]
    exact div_self (ne_of_gt hvR)

/-- C7: the cross-correlator considers each unordered key pair once,
truncates to the shorter length and skips short or zero-variance pairs,
keeps only |r| > 0.5 with the source's strength and sign labels, and
returns the list sorted by descending |r|; two identical series of
length ≥ 3 with nonzero variance give exactly one strong positive
correlation with r = 1. -/
theorem cross_correlate_spec :
    (∀ m : List (String × List ℚ), m.length < 2 → cross_correlate_trends m = []) ∧
      (∀ (m : List (String × List ℚ)) (e : Corr), e ∈ cross_correlate_trends m →
        ∃ p, p ∈ pairsList m ∧ corrOfPair p = some e ∧
          3 ≤ min p.1.2.length p.2.2.length ∧
          0 < varQ (p.1.2.take (min p.1.2.length p.2.2.length)) ∧
          0 < varQ (p.2.2.take (min p.1.2.length p.2.2.length)) ∧
          e.keyword1 = p.1.1 ∧ e.keyword2 = p.2.1 ∧
          (1 / 2 : ℝ) < |(e.cov : ℝ) / Real.sqrt ((e.varProd : ℝ))| ∧
          (e.strength = "strong" ↔ (7 / 10 : ℝ) < |(e.cov : ℝ) / Real.sqrt ((e.varProd : ℝ))|) ∧
          (e.strength = "strong" ∨ e.strength = "moderate") ∧
          (e.ctype = "positive" ↔ 0 < (e.cov : ℝ) / Real.sqrt ((e.varProd : ℝ))) ∧
          (e.ctype = "positive" ∨ e.ctype = "negative")) ∧
      (∀ m : List (String × List ℚ), (cross_correlate_trends m).Pairwise
        (fun a b => |(b.cov : ℝ) / Real.sqrt ((b.varProd : ℝ))| ≤
          |(a.cov : ℝ) / Real.sqrt ((a.varProd : ℝ))|)) ∧
      (∀ m : List (String × List ℚ), (m.map Prod.fst).Nodup →
        ((cross_correlate_trends m).map fun e => (e.keyword1, e.keyword2)).Nodup) ∧
      ∀ (k1 k2 : String) (xs : List ℚ), k1 ≠ k2 → 3 ≤ xs.length → varQ xs ≠ 0 →
        ∃ e, cross_correlate_trends [(k1, xs), (k2, xs)] = [e] ∧ e.keyword1 = k1 ∧
          e.keyword2 = k2 ∧ (e.cov : ℝ) / Real.sqrt ((e.varProd : ℝ)) = 1 ∧
          e.strength = "strong" ∧ e.ctype = "positive" := by
  refine ⟨?_, ?_, ?_, ?_, cross_identical⟩
  · intro m h
    simp [cross_correlate_trends, h]
  · intro m e he
    rw [cross_correlate_trends] at he
    split_ifs at he with hlen
    · simp at he
    · rw [List.mem_mergeSort, List.mem_filterMap] at he
      obtain ⟨p, hp, hcp⟩ := he
      obtain ⟨hmin, hv1, hv2, hk1, hk2, -, hvp, h4, hstr, hstror, hty, htyor⟩ :=
        corrOfPair_spec p e hcp
      have hvpos : (0 : ℚ) < e.varProd := by rw [hvp]; exact mul_pos hv1 hv2
      refine ⟨p, hp, hcp, hmin, hv1, hv2, hk1, hk2, ?_, ?_, hstror, ?_, htyor⟩
      · have h0 : ((1 / 2 : ℚ) : ℝ) < |(e.cov : ℝ) / Real.sqrt ((e.varProd : ℝ))| :=
          (abs_corr_gt_iff e.cov e.varProd (1 / 2) hvpos (by norm_num)).mpr (by nlinarith)
        push_cast at h0
        exact h0
      · have h0 := abs_corr_gt_iff e.cov e.varProd (7 / 10) hvpos (by norm_num)
        rw [hstr]
        constructor
        · intro h49
          have h1 := h0.mpr (by nlinarith)
          push_cast at h1
          exact h1
        · intro habs
          have h1 : ((7 / 10 : ℚ) : ℝ) < |(e.cov : ℝ) / Real.sqrt ((e.varProd : ℝ))| := by
            push_cast
            exact habs
          have h2 := h0.mp h1
          nlinarith
      · rw [hty]
        exact (corr_pos_iff e.cov e.varProd hvpos).symm
  · intro m
    rw [cross_correlate_trends]
    split_ifs with hlen
    · simp
    · have htrans : ∀ a b c : Corr, decide (corrKey b ≤ corrKey a) = true →
          decide (corrKey c ≤ corrKey b) = true →
          decide (corrKey c ≤ corrKey a) = true := by
        intro a b c hab hbc
        simp only [decide_eq_true_eq] at *
        exact le_trans hbc hab
      have htot : ∀ a b : Corr, (decide (corrKey b ≤ corrKey a) ||
          decide (corrKey a ≤ corrKey b)) = true := by
        intro a b
        simp only [Bool.or_eq_true, decide_eq_true_eq]
        exact le_total _ _
      have hs := List.sorted_mergeSort htrans htot ((pairsList m).filterMap corrOfPair)
      refine hs.imp_of_mem ?_
      intro a b ha hb hab
      rw [List.mem_mergeSort, List.mem_filterMap] at ha hb
      obtain ⟨pa, -, hpa⟩ := ha
      obtain ⟨pb, -, hpb⟩ := hb
      obtain ⟨-, hva1, hva2, -, -, -, hvpa, -⟩ := corrOfPair_spec pa a hpa
      obtain ⟨-, hvb1, hvb2, -, -, -, hvpb, -⟩ := corrOfPair_spec pb b hpb
      have hapos : (0 : ℚ) < a.varProd := by rw [hvpa]; exact mul_pos hva1 hva2
      have hbpos : (0 : ℚ) < b.varProd := by rw [hvpb]; exact mul_pos hvb1 hvb2
      simp only [decide_eq_true_eq] at hab
      rw [abs_corr_eq_sqrt a.cov a.varProd hapos, abs_corr_eq_sqrt b.cov b.varProd hbpos]
      apply Real.sqrt_le_sqrt
      have hkey : b.cov ^ 2 / b.varProd ≤ a.cov ^ 2 / a.varProd := hab
      exact_mod_cast hkey
  · intro m hnodup
    rw [cross_correlate_trends]
    split_ifs with hlen
    · simp
    · have hperm := List.mergeSort_perm ((pairsList m).filterMap corrOfPair)
        fun a b => decide (corrKey b ≤ corrKey a)
      refine ((hperm.map fun e => (e.keyword1, e.keyword2)).nodup_iff).mpr ?_
      exact ((filterMap_kw_sublist (pairsList m)).nodup (pairsList_keys_nodup m hnodup))

/-- Witness for C7 at a concrete identical pair. -/
theorem cross_correlate_spec_witness :
    ∃ e, cross_correlate_trends [("a", [1, 2, 3]), ("b", [1, 2, 3])] = [e] ∧
      e.keyword1 = "a" ∧ e.keyword2 = "b" ∧
      (e.cov : ℝ) / Real.sqrt ((e.varProd : ℝ)) = 1 ∧
      e.strength = "strong" ∧ e.ctype = "positive" :=
  cross_correlate_spec.2.2.2.2 "a" "b" [1, 2, 3] (by decide) (by decide)
    (by norm_num [varQ, getQ, meanQ, List.range_succ])

end TrendAnalyzer
